import Mathlib

/-!
# Verification of the fantasy-squad selection core (`src/main.py`)

A shallow embedding of the core of the repository: fixture-difficulty
weighting (`_calculate_fixture_multiplier`), the expected-points builder
(`_incorporate_fixture_difficulty`), input validation (`_validate_inputs`),
the two squad solvers (`_solve_with_mip`, `_solve_with_ga`), the public
entry point (`select_initial_squad`) and the lineup selector
(`select_starting_eleven` / `_optimize_formation`).

Modelling conventions:
* Python floats are modelled as exact rationals `ℚ`; all the constants
  involved (0.2, 0.5, 0.6, 1.6, multiples thereof) are exactly
  representable, so the symbolic arithmetic of the spec is captured.
* A pandas DataFrame is a list of rows plus a list of column names; a cell
  that may be missing/NaN is an `Option`.
* `pandas.sort_values` is modelled by `List.mergeSort` with the same key;
  only the sortedness of the result (not the unspecified tie order of the
  unstable quicksort) is relied on by any theorem.
* The external CBC solver invoked by `_solve_with_mip` is modelled as an
  oracle (`MipOutcome`): a termination status plus a 0/1 assignment.  The
  solver contract — an `optimal` status comes with an assignment satisfying
  all constraints of the formulated program — is an explicit hypothesis
  where needed.
-/

/-- A row of the players table.  `totalPoints` is `none` when the
`total_points` cell is NaN/missing; `ep` holds the per-round
expected-points cells (column name ↦ value). -/
structure Player where
  id : Int
  elementType : Int
  team : Int
  nowCost : Int
  totalPoints : Option ℚ
  ep : List (String × ℚ)
deriving DecidableEq, Repr, Inhabited

/-- The players DataFrame: column names plus rows. -/
structure PlayersTable where
  cols : List String
  rows : List Player
deriving DecidableEq, Repr, Inhabited

/-- A row of the fixtures table.  `event` is the round number (possibly
NaN), the team and difficulty cells may each be missing. -/
structure Fixture where
  event : Option Int
  teamH : Option Int
  teamA : Option Int
  teamHDifficulty : Option Int
  teamADifficulty : Option Int
deriving DecidableEq, Repr, Inhabited

/-- The fixtures DataFrame: whether an `event` column exists, plus rows. -/
structure FixtureTable where
  hasEventCol : Bool
  rows : List Fixture
deriving DecidableEq, Repr, Inhabited

/-- Value of an expected-points cell of a player (0 when absent, matching
the neutral element the claims need for missing data). -/
def Player.epVal (p : Player) (c : String) : ℚ :=
  match p.ep.find? (fun kv => kv.1 = c) with
  | some kv => kv.2
  | none => 0

/-- Overwrite (or create) an expected-points cell of a player. -/
def Player.setEp (p : Player) (c : String) (v : ℚ) : Player :=
  { p with ep := (c, v) :: p.ep.filter (fun kv => ¬ kv.1 = c) }

/-- `position_mapping = {1: 'GK', 2: 'DEF', 3: 'MID', 4: 'FWD'}` applied to
one element type; any other element type maps to a NaN stand-in that is
distinct from the four class labels. -/
def positionName (e : Int) : String :=
  if e = 1 then "GK" else if e = 2 then "DEF" else if e = 3 then "MID"
  else if e = 4 then "FWD" else "NaN"

/-- The `position` column a solver attaches to the squad rows. -/
def Player.position (p : Player) : String := positionName p.elementType

/-! ## Fixture Weighting (`_calculate_fixture_multiplier`) -/

/-- `max(0.6, 1.6 - difficulty * 0.2)` from `src/main.py` lines 327-328. -/
def difficultyMultiplier (d : Int) : ℚ :=
  max 0.6 (1.6 - (d : ℚ) * 0.2)

/-- One iteration of the fixture loop (lines 320-333): write the home
entry, then the away entry.  A later write wins, which the association
list realises by prepending and looking up the first match. -/
def tmStep (acc : List (Int × ℚ)) (fx : Fixture) : List (Int × ℚ) :=
  let acc1 := match fx.teamH with
    | some h => (h, difficultyMultiplier (fx.teamHDifficulty.getD 3)) :: acc
    | none => acc
  match fx.teamA with
    | some a => (a, difficultyMultiplier (fx.teamADifficulty.getD 3)) :: acc1
    | none => acc1

/-- The `team_multipliers` dict built by the fixture loop. -/
def teamMultipliers (gwFixtures : List Fixture) : List (Int × ℚ) :=
  gwFixtures.foldl tmStep []

/-- `team_multipliers.get(team_id, 1.0)`. -/
def lookupMult (l : List (Int × ℚ)) (t : Int) : ℚ :=
  match l.find? (fun kv => kv.1 = t) with
  | some kv => kv.2
  | none => 1

/-- The fixtures of one round: `fixtures[fixtures['event'] == gameweek]`. -/
def gwFixtures (ft : FixtureTable) (gw : Int) : List Fixture :=
  ft.rows.filter (fun fx => fx.event = some gw)

/-- The multiplier `_calculate_fixture_multiplier` assigns to one club:
1.0 when the fixture table is empty or lacks the round column, 1.0 when the
round has no fixtures or the club appears in none of them, and otherwise
the dict entry for the club. -/
def playerMultiplier (ft : FixtureTable) (gw : Int) (t : Int) : ℚ :=
  if ft.rows.isEmpty || !ft.hasEventCol then 1
  else
    let gwf := gwFixtures ft gw
    if gwf.isEmpty then 1
    else lookupMult (teamMultipliers gwf) t

/-- `_calculate_fixture_multiplier`: the per-player Series, aligned with the
players' rows. -/
def calcFixtureMultiplier (players : List Player) (ft : FixtureTable) (gw : Int) :
    List ℚ :=
  players.map (fun p => playerMultiplier ft gw p.team)

/-- The difficulties one fixture writes for club `t` (home entry before
away entry). -/
def assignOf (fx : Fixture) (t : Int) : List Int :=
  (if fx.teamH = some t then [fx.teamHDifficulty.getD 3] else []) ++
  (if fx.teamA = some t then [fx.teamADifficulty.getD 3] else [])

/-- The difficulties written for club `t` while processing the round's
fixtures, in write order.  The dict's final entry for `t` comes from the
last element. -/
def clubAssignments (gwf : List Fixture) (t : Int) : List Int :=
  gwf.flatMap (fun fx => assignOf fx t)

/-! ## Expected-Points Builder (`_incorporate_fixture_difficulty`) -/

/-- `players['total_points'].fillna(50) / 38` clipped below at 0.5
(lines 278-280). -/
def basePointsPerGw (p : Player) : ℚ :=
  max 0.5 ((p.totalPoints.getD 50) / 38)

/-- Assign a whole column of the players table:
`players_work[col] = f(row)` for every row. -/
def setColAll (tbl : PlayersTable) (c : String) (f : Player → ℚ) : PlayersTable :=
  { cols := if c ∈ tbl.cols then tbl.cols else tbl.cols ++ [c]
    rows := tbl.rows.map (fun p => p.setEp c (f p)) }

/-- `_incorporate_fixture_difficulty` (lines 269-296): when not all named
expected-points columns exist, every named column is synthesized as
`basePointsPerGw × fixture multiplier of round gwStart + i`; when all exist,
each named column is scaled by the round's fixture multiplier.  The fold
reads the current value of the column from the accumulated table, exactly
as the Python loop reads the mutated `players_work`. -/
def incorporateFixtureDifficulty (tbl : PlayersTable) (ft : FixtureTable)
    (gwStart _gwEnd : Int) (epCols : List String) : PlayersTable :=
  if ¬ (∀ c ∈ epCols, c ∈ tbl.cols) then
    epCols.enum.foldl (fun acc ic =>
      setColAll acc ic.2
        (fun p => basePointsPerGw p * playerMultiplier ft (gwStart + ic.1) p.team)) tbl
  else
    epCols.enum.foldl (fun acc ic =>
      setColAll acc ic.2
        (fun p => p.epVal ic.2 * playerMultiplier ft (gwStart + ic.1) p.team)) tbl

/-- `players_work["exp_pts_window"] = players_work[expected_points_cols].sum(axis=1)`
(line 234), as the derived per-player value. -/
def expPtsWindowOf (epCols : List String) (p : Player) : ℚ :=
  (epCols.map (fun c => p.epVal c)).sum

/-! ## Validation (`_validate_inputs`) -/

/-- Errors raised by the core.  `keyError` is Python's `KeyError` (the
schema error), `valueError` a `ValueError` (data / range errors),
`infeasibleError` / `infeasibleFill` / `infeasibleCount` the three
`InfeasibleError` sites (the latter two keep the formatted quantities of
the GA messages as structured fields), `runtimeError` a `RuntimeError`. -/
inductive FplError where
  | keyError (missing : List String)
  | valueError (msg : String)
  | infeasibleError (msg : String)
  | infeasibleFill (position : String) (need got : Nat) (remainingBudget : Int)
  | infeasibleCount (got : Nat)
  | runtimeError (msg : String)
deriving DecidableEq, Repr

/-- Which errors are Python `InfeasibleError`s. -/
def FplError.isInfeasible : FplError → Bool
  | .infeasibleError _ => true
  | .infeasibleFill _ _ _ _ => true
  | .infeasibleCount _ => true
  | _ => false

def requiredCols : List String := ["id", "element_type", "team", "now_cost"]

/-- `players['id'].duplicated().any()`. -/
def hasDuplicateIds (tbl : PlayersTable) : Bool :=
  ¬ (tbl.rows.map (fun p => p.id)).Nodup

/-- Result of `_validate_inputs`: whether the pool-size advisory was
emitted, and the first error raised (if any).  The advisory is reached
only after the schema and duplicate checks pass, and execution continues
past it, exactly as in lines 401-418. -/
structure ValidationOutcome where
  warned : Bool
  result : Except FplError Unit
deriving Repr

def validateInputs (tbl : PlayersTable) (gwStart gwEnd : Int) (budget : ℚ) :
    ValidationOutcome :=
  let missing := requiredCols.filter (fun c => ¬ c ∈ tbl.cols)
  if ¬ missing = [] then ⟨false, .error (.keyError missing)⟩
  else if hasDuplicateIds tbl then
    ⟨false, .error (.valueError "Duplicate player IDs found")⟩
  else
    let warned := tbl.rows.length > 1000
    if gwStart < 1 ∨ gwEnd < gwStart ∨ gwEnd > 38 then
      ⟨warned, .error (.valueError "Invalid gameweek range")⟩
    else if budget ≤ 0 then
      ⟨warned, .error (.valueError "Budget must be positive")⟩
    else ⟨warned, .ok ()⟩

/-! ## Exact solver (`_solve_with_mip`) -/

/-- Termination status reported by the external CBC solver. -/
inductive MipStatus where
  | optimal
  | infeasible
  | other (s : String)
deriving DecidableEq, Repr

/-- The external solver's answer: a status and the 0/1 assignment of the
binary variable of each player id. -/
structure MipOutcome where
  status : MipStatus
  sel : Int → Bool

/-- `int(budget_million * 10)`: Python truncation toward zero, which equals
the floor on the validated domain `budget > 0`. -/
def budgetUnits (budget : ℚ) : Int := ⌊budget * 10⌋

/-- The constraints of the integer program formulated in lines 435-458,
expressed over the row list and a 0/1 assignment (a sum of binary
variables over a row subset is the count of selected rows in it): exactly
15 selected; within each `players[players['element_type'] == e]` subset
exactly the position quota selected; selected cost within the integer
budget; within each `players[players['team'] == c]` subset at most 3
selected. -/
def mipConstraintsOk (rows : List Player) (sel : Int → Bool) (bu : Int) : Prop :=
  (rows.filter (fun p => sel p.id)).length = 15 ∧
  ((rows.filter (fun p => p.elementType = 1)).filter (fun p => sel p.id)).length = 2 ∧
  ((rows.filter (fun p => p.elementType = 2)).filter (fun p => sel p.id)).length = 5 ∧
  ((rows.filter (fun p => p.elementType = 3)).filter (fun p => sel p.id)).length = 5 ∧
  ((rows.filter (fun p => p.elementType = 4)).filter (fun p => sel p.id)).length = 3 ∧
  ((rows.filter (fun p => sel p.id)).map (fun p => p.nowCost)).sum ≤ bu ∧
  (∀ c : Int, ((rows.filter (fun p => p.team = c)).filter (fun p => sel p.id)).length ≤ 3)

/-- The fields of `SquadResult` the claims are about.  `squadRows` is
`squad_df` (with its derived `position` available through
`Player.position`), `totalCost` the summed cost in millions,
`expectedPoints` the summed windowed points. -/
structure SquadResult where
  squadRows : List Player
  totalCost : ℚ
  expectedPoints : ℚ
deriving DecidableEq, Repr, Inhabited

/-- `_solve_with_mip` (lines 420-512) with the CBC call abstracted into the
`outcome` oracle: non-optimal statuses raise, the extracted selection must
have exactly 15 ids, and the squad is the rows whose id is selected. -/
def solveWithMip (rows : List Player) (wpts : Player → ℚ) (outcome : MipOutcome) :
    Except FplError SquadResult :=
  match outcome.status with
  | .infeasible =>
    .error (.infeasibleError "No feasible solution found - constraints cannot be satisfied")
  | .other s => .error (.runtimeError ("Solver failed with status: " ++ s))
  | .optimal =>
    let selectedIds := ((rows.filter (fun p => outcome.sel p.id)).map (fun p => p.id))
    if ¬ selectedIds.length = 15 then
      .error (.runtimeError "Invalid solution: wrong number of players selected")
    else
      let squad := rows.filter (fun p => p.id ∈ selectedIds)
      .ok { squadRows := squad
            totalCost := ((squad.map (fun p => p.nowCost)).sum : ℚ) / 10
            expectedPoints := (squad.map wpts).sum }

/-! ## Heuristic solver (`_solve_with_ga`) -/

/-- Number of already-selected players of club `t`
(`current_clubs.value_counts().get(player['team'], 0)`). -/
def clubCount (sel : List Player) (t : Int) : Nat :=
  (sel.filter (fun p => p.team = t)).length

/-- `exp_pts_window / now_cost`, the `value` column of line 531. -/
def playerValue (wpts : Player → ℚ) (p : Player) : ℚ :=
  wpts p / (p.nowCost : ℚ)

/-- `sort_values(['value', 'exp_pts_window'], ascending=[False, False])`:
descending by ratio, ties broken by descending windowed points. -/
def rankedByValue (wpts : Player → ℚ) (candidates : List Player) : List Player :=
  candidates.mergeSort (fun a b =>
    decide (playerValue wpts b < playerValue wpts a ∨
      (playerValue wpts a = playerValue wpts b ∧ wpts b ≤ wpts a)))

/-- `sort_values('now_cost')`: ascending by cost. -/
def rankedByCost (l : List Player) : List Player :=
  l.mergeSort (fun a b => decide (a.nowCost ≤ b.nowCost))

/-- One greedy scan over a candidate list (the loop bodies at lines 538-550
and 556-570): stop once the position quota is reached; take a candidate if
it is affordable, not already selected (second pass only), and its club has
fewer than 3 selected players.  Returns the grown selection, the remaining
budget, and the position count. -/
def gaScan (limit : Nat) (checkDup : Bool) :
    List Player → List Player → Int → Nat → List Player × Int × Nat
  | [], sel, rem, cnt => (sel, rem, cnt)
  | p :: rest, sel, rem, cnt =>
    if limit ≤ cnt then (sel, rem, cnt)
    else if p.nowCost ≤ rem ∧
        (checkDup = true → ¬ p.id ∈ sel.map (fun q => q.id)) ∧
        clubCount sel p.team < 3 then
      gaScan limit checkDup rest (sel ++ [p]) (rem - p.nowCost) (cnt + 1)
    else gaScan limit checkDup rest sel rem cnt

/-- `players[players['element_type'] == element_type]` for one position. -/
def posCandidates (players : List Player) (etype : Int) : List Player :=
  players.filter (fun p => p.elementType = etype)

/-- The two greedy passes of one position iteration: first over the
value-ranked candidates with the position count starting at 0; then, only
if the quota is unfilled, over the same candidates re-ranked by cost
ascending (with the duplicate check active). -/
def gaTwoPass (limit : Nat) (ranked sel : List Player) (rem : Int) :
    List Player × Int × Nat :=
  let s1 := gaScan limit false ranked sel rem 0
  if s1.2.2 < limit
    then gaScan limit true (rankedByCost ranked) s1.1 s1.2.1 s1.2.2
    else s1

/-- Fill one position quota (one iteration of the `position_mapping` loop,
lines 527-573): the two greedy passes, then the quota-naming infeasibility
error if still short. -/
def fillPosition (players : List Player) (wpts : Player → ℚ) (etype : Int)
    (posLabel : String) (limit : Nat) (sel : List Player) (rem : Int) :
    Except FplError (List Player × Int) :=
  let s2 := gaTwoPass limit (rankedByValue wpts (posCandidates players etype)) sel rem
  if s2.2.2 < limit then .error (.infeasibleFill posLabel limit s2.2.2 s2.2.1)
  else .ok (s2.1, s2.2.1)

/-- `_solve_with_ga` (lines 514-609): positions processed in the dict order
GK, DEF, MID, FWD with quotas 2/5/5/3, then the final 15-count check. -/
def solveWithGa (rows : List Player) (wpts : Player → ℚ) (budget : ℚ) :
    Except FplError SquadResult :=
  match fillPosition rows wpts 1 "GK" 2 [] (budgetUnits budget) with
  | .error e => .error e
  | .ok (s1, r1) =>
    match fillPosition rows wpts 2 "DEF" 5 s1 r1 with
    | .error e => .error e
    | .ok (s2, r2) =>
      match fillPosition rows wpts 3 "MID" 5 s2 r2 with
      | .error e => .error e
      | .ok (s3, r3) =>
        match fillPosition rows wpts 4 "FWD" 3 s3 r3 with
        | .error e => .error e
        | .ok (s4, _r4) =>
          if ¬ s4.length = 15 then .error (.infeasibleCount s4.length)
          else
            .ok { squadRows := s4
                  totalCost := ((s4.map (fun p => p.nowCost)).sum : ℚ) / 10
                  expectedPoints := (s4.map wpts).sum }

/-! ## Public entry point (`select_initial_squad`) -/

inductive SolverKind where
  | mip
  | ga
deriving DecidableEq, Repr

/-- The default `expected_points_cols = [f"ep_gw{gw}" for gw in
range(gw_start, gw_end + 1)]`. -/
def defaultEpCols (gwStart gwEnd : Int) : List String :=
  (List.range (gwEnd + 1 - gwStart).toNat).map
    (fun i => "ep_gw" ++ toString (gwStart + (i : Int)))

/-- `select_initial_squad` (lines 190-267): validate, build the augmented
expected-points table, derive the windowed points, dispatch the solver.
The windowed points column is carried as the derived function
`expPtsWindowOf epCols` applied to the augmented rows. -/
def selectSquad (tbl : PlayersTable) (ft : FixtureTable) (gwStart gwEnd : Int)
    (budget : ℚ) (solver : SolverKind) (epColsOpt : Option (List String))
    (oracle : MipOutcome) : Except FplError SquadResult :=
  match (validateInputs tbl gwStart gwEnd budget).result with
  | .error e => .error e
  | .ok _ =>
    let epCols := epColsOpt.getD (defaultEpCols gwStart gwEnd)
    let worked := incorporateFixtureDifficulty tbl ft gwStart gwEnd epCols
    match solver with
    | .mip => solveWithMip worked.rows (expPtsWindowOf epCols) oracle
    | .ga => solveWithGa worked.rows (expPtsWindowOf epCols) budget

/-! ## Lineup Selector (`select_starting_eleven` / `_optimize_formation`) -/

/-- The fixed formation list of lines 70-79, in source order. -/
def allowedFormations : List (Nat × Nat × Nat) :=
  [(3,4,3), (3,5,2), (4,3,3), (4,4,2), (4,5,1), (5,2,3), (5,3,2), (5,4,1)]

/-- `sort_values(gw_col, ascending=False)` on a list of squad players. -/
def sortByPtsDesc (pts : Player → ℚ) (l : List Player) : List Player :=
  l.mergeSort (fun a b => decide (pts b ≤ pts a))

/-- The not-enough-players check of `_optimize_formation` (lines 148-150):
fewer than 1 goalkeeper, or fewer squad players than the formation needs in
another class. -/
def formationInfeasible (squad : List Player) (dc mc fc : Nat) : Prop :=
  (squad.filter (fun p => p.position = "GK")).length < 1 ∨
  (squad.filter (fun p => p.position = "DEF")).length < dc ∨
  (squad.filter (fun p => p.position = "MID")).length < mc ∨
  (squad.filter (fun p => p.position = "FWD")).length < fc

instance (squad : List Player) (dc mc fc : Nat) :
    Decidable (formationInfeasible squad dc mc fc) := by
  unfold formationInfeasible
  infer_instance

/-- The starting eleven of one formation (lines 152-165): within each
position class sort by the round's points descending and take the top
1 / dc / mc / fc. -/
def formationXI (squad : List Player) (pts : Player → ℚ) (dc mc fc : Nat) :
    List Player :=
  (sortByPtsDesc pts (squad.filter (fun p => p.position = "GK"))).take 1 ++
  (sortByPtsDesc pts (squad.filter (fun p => p.position = "DEF"))).take dc ++
  (sortByPtsDesc pts (squad.filter (fun p => p.position = "MID"))).take mc ++
  (sortByPtsDesc pts (squad.filter (fun p => p.position = "FWD"))).take fc

/-- The bench (lines 167-170): all squad players whose id was not selected,
sorted by points. -/
def formationBench (squad : List Player) (pts : Player → ℚ) (dc mc fc : Nat) :
    List Player :=
  sortByPtsDesc pts (squad.filter (fun p =>
    ¬ p.id ∈ (formationXI squad pts dc mc fc).map (fun q => q.id)))

/-- The formation's score (lines 177-186): sum of round points over the
eleven, the captain's multiplied by the captain multiplier, the
vice-captain's by the vice multiplier. -/
def lineupTotal (xi : List Player) (pts : Player → ℚ) (capId viceId : Int)
    (capM viceM : ℚ) : ℚ :=
  (xi.map (fun p =>
    if p.id = capId then pts p * capM
    else if p.id = viceId then pts p * viceM else pts p)).sum

/-- `_optimize_formation` (lines 129-188).  `pts` is the squad's round
expected-points column (`squad_df[gw_col]`).  Returns `none` when a
position class has fewer players than the formation requires (the
`ValueError` that `select_starting_eleven` catches and skips).  The final
wildcard arm models the out-of-range `iloc` on a sub-2-player lineup,
unreachable for every formation of the fixed list. -/
def optimizeFormation (squad : List Player) (pts : Player → ℚ)
    (dc mc fc : Nat) (capM viceM : ℚ) :
    Option (List Player × List Player × ℚ × Int × Int) :=
  if formationInfeasible squad dc mc fc then none
  else
    match sortByPtsDesc pts (formationXI squad pts dc mc fc) with
    | c :: v :: _ =>
      some (formationXI squad pts dc mc fc, formationBench squad pts dc mc fc,
        lineupTotal (formationXI squad pts dc mc fc) pts c.id v.id capM viceM,
        c.id, v.id)
    | _ => none

/-- The fields of `StartingElevenResult` the claims are about. -/
structure StartingElevenResult where
  startingEleven : List Player
  bench : List Player
  formation : String
  captainId : Int
  viceCaptainId : Int
  expectedPointsGw : ℚ
  formationBreakdown : List (String × Nat)
deriving DecidableEq, Repr, Inhabited

/-- The running best of the formation loop. -/
structure BestChoice where
  xi : List Player
  bench : List Player
  points : ℚ
  captain : Int
  vice : Int
  fm : Nat × Nat × Nat
deriving DecidableEq, Repr

/-- One iteration of the formation loop (lines 89-105): a skipped
formation leaves the best unchanged; a feasible one replaces it only when
its score strictly exceeds the best so far, whose initial sentinel is
`best_points = -1`. -/
def formationStep (squad : List Player) (pts : Player → ℚ) (capM viceM : ℚ)
    (best : Option BestChoice) (fm : Nat × Nat × Nat) : Option BestChoice :=
  match optimizeFormation squad pts fm.1 fm.2.1 fm.2.2 capM viceM with
  | none => best
  | some (xi, bench, total, cap, vice) =>
    let bestPts : ℚ := match best with | none => -1 | some b => b.points
    if bestPts < total then some ⟨xi, bench, total, cap, vice, fm⟩ else best

def formationString (fm : Nat × Nat × Nat) : String :=
  toString fm.1 ++ "-" ++ toString fm.2.1 ++ "-" ++ toString fm.2.2

/-- `select_starting_eleven` (lines 38-127), with `pts` standing for the
round column `squad_df[gw_col]` of the requested gameweek. -/
def selectStartingEleven (squad : List Player) (pts : Player → ℚ)
    (capM viceM : ℚ) : Except String StartingElevenResult :=
  match allowedFormations.foldl (formationStep squad pts capM viceM) none with
  | none => .error "No valid formation possible with current squad"
  | some b =>
    .ok { startingEleven := b.xi
          bench := b.bench
          formation := formationString b.fm
          captainId := b.captain
          viceCaptainId := b.vice
          expectedPointsGw := b.points
          formationBreakdown :=
            [("GK", 1), ("DEF", b.fm.1), ("MID", b.fm.2.1), ("FWD", b.fm.2.2)] }

/-! ## Lemmas: the team-multiplier dict -/

/-- Interpret a write list: the dict holds the last write, or the default. -/
def lastMult (ds : List Int) (dflt : ℚ) : ℚ :=
  match ds.getLast? with
  | some d => difficultyMultiplier d
  | none => dflt

theorem lookupMult_tmStep (acc : List (Int × ℚ)) (fx : Fixture) (t : Int) :
    lookupMult (tmStep acc fx) t = lastMult (assignOf fx t) (lookupMult acc t) := by
  rcases fx with ⟨ev, th, ta, dh, da⟩
  rcases th with _ | h <;> rcases ta with _ | a <;>
    simp only [tmStep, assignOf, lastMult, lookupMult]
  · rfl
  · by_cases hat : a = t <;> simp [List.find?_cons, hat, lookupMult]
  · by_cases hht : h = t <;> simp [List.find?_cons, hht, lookupMult]
  · by_cases hat : a = t <;> by_cases hht : h = t <;>
      simp [List.find?_cons, hat, hht, lookupMult]

theorem lastMult_append (a b : List Int) (dflt : ℚ) :
    lastMult (a ++ b) dflt = lastMult b (lastMult a dflt) := by
  unfold lastMult
  rw [List.getLast?_append]
  cases hb : b.getLast? <;> simp [Option.or]

theorem lookupMult_foldl (gwf : List Fixture) (acc : List (Int × ℚ)) (t : Int) :
    lookupMult (gwf.foldl tmStep acc) t =
      lastMult (clubAssignments gwf t) (lookupMult acc t) := by
  induction gwf generalizing acc with
  | nil => simp [clubAssignments, lastMult]
  | cons fx rest ih =>
    rw [List.foldl_cons, ih, lookupMult_tmStep]
    show lastMult (clubAssignments rest t) (lastMult (assignOf fx t) (lookupMult acc t)) =
      lastMult (clubAssignments (fx :: rest) t) (lookupMult acc t)
    rw [show clubAssignments (fx :: rest) t = assignOf fx t ++ clubAssignments rest t from
      List.flatMap_cons fx rest _, lastMult_append]

theorem lookupMult_teamMultipliers (gwf : List Fixture) (t : Int) :
    lookupMult (teamMultipliers gwf) t = lastMult (clubAssignments gwf t) 1 := by
  rw [teamMultipliers, lookupMult_foldl]
  rfl

theorem playerMultiplier_absent (ft : FixtureTable) (gw t : Int)
    (h : ft.rows = [] ∨ ft.hasEventCol = false) : playerMultiplier ft gw t = 1 := by
  unfold playerMultiplier
  rcases h with h | h <;> simp [h, List.isEmpty_iff]

theorem playerMultiplier_no_assignment (ft : FixtureTable) (gw t : Int)
    (h : clubAssignments (gwFixtures ft gw) t = []) : playerMultiplier ft gw t = 1 := by
  unfold playerMultiplier
  split_ifs with h1
  · rfl
  · show (if (gwFixtures ft gw).isEmpty = true then 1
      else lookupMult (teamMultipliers (gwFixtures ft gw)) t) = 1
    split_ifs with h2
    · rfl
    · rw [lookupMult_teamMultipliers, h]
      rfl

theorem playerMultiplier_last_assignment (ft : FixtureTable) (gw t : Int)
    (ds : List Int) (d : Int) (hev : ft.hasEventCol = true)
    (h : clubAssignments (gwFixtures ft gw) t = ds ++ [d]) :
    playerMultiplier ft gw t = difficultyMultiplier d := by
  unfold playerMultiplier
  split_ifs with h1
  · exfalso
    simp only [hev, Bool.not_true, Bool.or_false, List.isEmpty_iff] at h1
    rw [show gwFixtures ft gw = [] from by simp [gwFixtures, h1]] at h
    exact absurd h.symm (List.append_ne_nil_of_right_ne_nil _ (by simp))
  · show (if (gwFixtures ft gw).isEmpty = true then 1
      else lookupMult (teamMultipliers (gwFixtures ft gw)) t) = difficultyMultiplier d
    split_ifs with h2
    · exfalso
      rw [List.isEmpty_iff] at h2
      rw [h2] at h
      exact absurd h.symm (List.append_ne_nil_of_right_ne_nil _ (by simp))
    · rw [lookupMult_teamMultipliers, h]
      unfold lastMult
      rw [List.getLast?_concat]

/-! ## Claim theorems: fixture weighting -/

/-- C2: for every fixture table and round, the fixture-weighting function
assigns to each club appearing in a fixture of that round the multiplier
`max(0.6, 1.6 − 0.2·difficulty)` computed from that club's home or away
difficulty (the last-processed assignment when a club appears more than
once; for a club with a single appearance this is its one difficulty), so
difficulty 1 ↦ 1.4, 2 ↦ 1.2, 3 ↦ 1.0, 4 ↦ 0.8, 5 ↦ 0.6; and assigns
exactly 1.0 to every club with no fixture in the round, and to every club
when the fixture table is empty or has no round column.  The Series
returned for a players table applies this club multiplier row by row. -/
theorem c2_fixture_multiplier (ft : FixtureTable) (gw t : Int)
    (players : List Player) :
    ((ft.rows = [] ∨ ft.hasEventCol = false) → playerMultiplier ft gw t = 1) ∧
    (clubAssignments (gwFixtures ft gw) t = [] → playerMultiplier ft gw t = 1) ∧
    (∀ (ds : List Int) (d : Int), ft.hasEventCol = true →
      clubAssignments (gwFixtures ft gw) t = ds ++ [d] →
      playerMultiplier ft gw t = max 0.6 (1.6 - (d : ℚ) * 0.2)) ∧
    (difficultyMultiplier 1 = 1.4 ∧ difficultyMultiplier 2 = 1.2 ∧
     difficultyMultiplier 3 = 1 ∧ difficultyMultiplier 4 = 0.8 ∧
     difficultyMultiplier 5 = 0.6) ∧
    (calcFixtureMultiplier players ft gw =
      players.map (fun p => playerMultiplier ft gw p.team)) := by
  refine ⟨playerMultiplier_absent ft gw t, playerMultiplier_no_assignment ft gw t,
    fun ds d hev h => playerMultiplier_last_assignment ft gw t ds d hev h,
    ⟨by norm_num [difficultyMultiplier], by norm_num [difficultyMultiplier],
     by norm_num [difficultyMultiplier], by norm_num [difficultyMultiplier],
     by norm_num [difficultyMultiplier]⟩, rfl⟩

/-- Witness for C2 at concrete data: one round-1 fixture, home club 10 with
difficulty 2, away club 20 with difficulty 4; club 99 has no fixture; an
empty table is neutral. -/
theorem c2_fixture_multiplier_witness :
    playerMultiplier ⟨true, [⟨some 1, some 10, some 20, some 2, some 4⟩]⟩ 1 10 =
      max 0.6 (1.6 - (2 : ℚ) * 0.2) ∧
    playerMultiplier ⟨true, [⟨some 1, some 10, some 20, some 2, some 4⟩]⟩ 1 20 =
      max 0.6 (1.6 - (4 : ℚ) * 0.2) ∧
    playerMultiplier ⟨true, [⟨some 1, some 10, some 20, some 2, some 4⟩]⟩ 1 99 = 1 ∧
    playerMultiplier ⟨true, []⟩ 1 10 = 1 := by
  refine ⟨(c2_fixture_multiplier ⟨true, [⟨some 1, some 10, some 20, some 2, some 4⟩]⟩
      1 10 []).2.2.1 [] 2 rfl (by decide),
    (c2_fixture_multiplier ⟨true, [⟨some 1, some 10, some 20, some 2, some 4⟩]⟩
      1 20 []).2.2.1 [] 4 rfl (by decide),
    (c2_fixture_multiplier ⟨true, [⟨some 1, some 10, some 20, some 2, some 4⟩]⟩
      1 99 []).2.1 (by decide),
    (c2_fixture_multiplier ⟨true, []⟩ 1 10 []).1 (Or.inl rfl)⟩

/-- C3 (counterexample to the claim as stated): the multiplier of an
integer difficulty need not lie in `[0.6, 1.4]` — a fixture with (out of
domain) difficulty 0 receives multiplier 1.6, both through the formula and
through a fixture table containing such a difficulty. -/
theorem c3_counterexample :
    difficultyMultiplier 0 = 1.6 ∧ ¬ difficultyMultiplier 0 ≤ 1.4 ∧
    playerMultiplier ⟨true, [⟨some 1, some 10, some 20, some 0, some 3⟩]⟩ 1 10 = 1.6 ∧
    ¬ playerMultiplier ⟨true, [⟨some 1, some 10, some 20, some 0, some 3⟩]⟩ 1 10 ≤ 1.4 := by
  refine ⟨by norm_num [difficultyMultiplier], by norm_num [difficultyMultiplier], ?_, ?_⟩
  · rw [playerMultiplier_last_assignment _ 1 10 [] 0 rfl (by decide)]
    norm_num [difficultyMultiplier]
  · rw [playerMultiplier_last_assignment _ 1 10 [] 0 rfl (by decide)]
    norm_num [difficultyMultiplier]

/-- C3 (amended): the fixture multiplier is monotonically non-increasing in
the integer difficulty and always at least 0.6; it lies in `[0.6, 1.4]` for
every difficulty ≥ 1 (difficulties below 1 can exceed 1.4, as the original
data domain never produces them); and a club with no fixture in the round,
or absent fixture data, receives exactly 1.0. -/
theorem c3_amended :
    (∀ d₁ d₂ : Int, d₁ ≤ d₂ → difficultyMultiplier d₂ ≤ difficultyMultiplier d₁) ∧
    (∀ d : Int, 0.6 ≤ difficultyMultiplier d) ∧
    (∀ d : Int, 1 ≤ d →
      0.6 ≤ difficultyMultiplier d ∧ difficultyMultiplier d ≤ 1.4) ∧
    (∀ ft gw t, clubAssignments (gwFixtures ft gw) t = [] →
      playerMultiplier ft gw t = 1) ∧
    (∀ (ft : FixtureTable) gw t, (ft.rows = [] ∨ ft.hasEventCol = false) →
      playerMultiplier ft gw t = 1) := by
  refine ⟨?_, ?_, ?_, fun ft gw t h => playerMultiplier_no_assignment ft gw t h,
    fun ft gw t h => playerMultiplier_absent ft gw t h⟩
  · intro d₁ d₂ h
    unfold difficultyMultiplier
    have : (d₁ : ℚ) ≤ (d₂ : ℚ) := by exact_mod_cast h
    apply max_le_max le_rfl
    nlinarith
  · intro d
    exact le_max_left _ _
  · intro d hd
    have : (1 : ℚ) ≤ (d : ℚ) := by exact_mod_cast hd
    refine ⟨le_max_left _ _, ?_⟩
    unfold difficultyMultiplier
    apply max_le (by norm_num)
    nlinarith

/-- Witness for the amended C3: monotone at 2 ≤ 4, bounds at 3,
neutrality at a concrete empty table. -/
theorem c3_amended_witness :
    difficultyMultiplier 4 ≤ difficultyMultiplier 2 ∧
    (0.6 ≤ difficultyMultiplier 3 ∧ difficultyMultiplier 3 ≤ 1.4) ∧
    playerMultiplier ⟨false, []⟩ 5 7 = 1 :=
  ⟨c3_amended.1 2 4 (by norm_num), c3_amended.2.2.1 3 (by norm_num),
   c3_amended.2.2.2.2 ⟨false, []⟩ 5 7 (Or.inl rfl)⟩

/-! ## Claim theorems: validation and exact-solver error handling -/

/-- C5: validation runs before solving and, in check order: a missing
required column (id / element_type / team / now_cost) raises the schema
`KeyError` naming exactly the missing columns; with the schema intact,
duplicate ids raise the data `ValueError` regardless of the round range and
budget; next an invalid round range raises a range `ValueError`; a
non-positive budget raises a range `ValueError` (one of the two range
messages, since an invalid round range is reported first); the pool-size
advisory is emitted exactly when the pool exceeds 1000 rows and is
non-fatal — validation still succeeds when everything else is valid. -/
theorem c5_validation (tbl : PlayersTable) (gwStart gwEnd : Int) (budget : ℚ) :
    (¬ requiredCols.filter (fun c => ¬ c ∈ tbl.cols) = [] →
      (validateInputs tbl gwStart gwEnd budget).result =
        .error (.keyError (requiredCols.filter (fun c => ¬ c ∈ tbl.cols)))) ∧
    ((∀ c ∈ requiredCols, c ∈ tbl.cols) → hasDuplicateIds tbl = true →
      (validateInputs tbl gwStart gwEnd budget).result =
        .error (.valueError "Duplicate player IDs found")) ∧
    ((∀ c ∈ requiredCols, c ∈ tbl.cols) → hasDuplicateIds tbl = false →
      (gwStart < 1 ∨ gwEnd < gwStart ∨ gwEnd > 38) →
      (validateInputs tbl gwStart gwEnd budget).result =
        .error (.valueError "Invalid gameweek range")) ∧
    ((∀ c ∈ requiredCols, c ∈ tbl.cols) → hasDuplicateIds tbl = false →
      budget ≤ 0 →
      ((validateInputs tbl gwStart gwEnd budget).result =
         .error (.valueError "Invalid gameweek range") ∨
       (validateInputs tbl gwStart gwEnd budget).result =
         .error (.valueError "Budget must be positive"))) ∧
    ((∀ c ∈ requiredCols, c ∈ tbl.cols) → hasDuplicateIds tbl = false →
      (validateInputs tbl gwStart gwEnd budget).warned =
        decide (tbl.rows.length > 1000)) ∧
    ((∀ c ∈ requiredCols, c ∈ tbl.cols) → hasDuplicateIds tbl = false →
      ¬ (gwStart < 1 ∨ gwEnd < gwStart ∨ gwEnd > 38) → 0 < budget →
      (validateInputs tbl gwStart gwEnd budget).result = .ok ()) := by
  have hiff : requiredCols.filter (fun c => ¬ c ∈ tbl.cols) = [] ↔
      (∀ c ∈ requiredCols, c ∈ tbl.cols) := by
    simp [List.filter_eq_nil_iff]
  refine ⟨?_, ?_, ?_, ?_, ?_, ?_⟩
  · intro hmiss
    unfold validateInputs
    rw [if_pos hmiss]
  · intro hcols hdup
    unfold validateInputs
    rw [if_neg (not_not_intro (hiff.mpr hcols)), if_pos hdup]
  · intro hcols hdup hgw
    unfold validateInputs
    rw [if_neg (not_not_intro (hiff.mpr hcols)), if_neg (by simp [hdup])]
    show (if gwStart < 1 ∨ gwEnd < gwStart ∨ gwEnd > 38 then _ else _ :
      ValidationOutcome).result = _
    rw [if_pos hgw]
  · intro hcols hdup hb
    unfold validateInputs
    rw [if_neg (not_not_intro (hiff.mpr hcols)), if_neg (by simp [hdup])]
    show (if gwStart < 1 ∨ gwEnd < gwStart ∨ gwEnd > 38 then _ else _ :
      ValidationOutcome).result = _ ∨
      (if gwStart < 1 ∨ gwEnd < gwStart ∨ gwEnd > 38 then _ else _ :
      ValidationOutcome).result = _
    split_ifs with hgw
    · exact Or.inl rfl
    · exact Or.inr rfl
  · intro hcols hdup
    unfold validateInputs
    rw [if_neg (not_not_intro (hiff.mpr hcols)), if_neg (by simp [hdup])]
    show (if gwStart < 1 ∨ gwEnd < gwStart ∨ gwEnd > 38 then _ else _ :
      ValidationOutcome).warned = _
    split_ifs with hgw hb <;> simp
  · intro hcols hdup hgw hb
    unfold validateInputs
    rw [if_neg (not_not_intro (hiff.mpr hcols)), if_neg (by simp [hdup])]
    show (if gwStart < 1 ∨ gwEnd < gwStart ∨ gwEnd > 38 then _ else _ :
      ValidationOutcome).result = _
    rw [if_neg hgw, if_neg (by linarith)]

/-- Witness for C5 at concrete inputs: a table missing `team`; a duplicate
id (with an invalid round range, showing the data error wins); an invalid
round range; a zero budget; and a fully valid call. -/
theorem c5_validation_witness :
    (validateInputs ⟨["id", "element_type", "now_cost"], []⟩ 1 4 100).result =
      .error (.keyError ["team"]) ∧
    (validateInputs ⟨requiredCols, [⟨1, 1, 1, 50, none, []⟩, ⟨1, 2, 2, 50, none, []⟩]⟩
      0 4 100).result = .error (.valueError "Duplicate player IDs found") ∧
    (validateInputs ⟨requiredCols, []⟩ 0 4 100).result =
      .error (.valueError "Invalid gameweek range") ∧
    ((validateInputs ⟨requiredCols, []⟩ 1 4 0).result =
       .error (.valueError "Invalid gameweek range") ∨
     (validateInputs ⟨requiredCols, []⟩ 1 4 0).result =
       .error (.valueError "Budget must be positive")) ∧
    (validateInputs ⟨requiredCols, []⟩ 1 4 100).warned = false ∧
    (validateInputs ⟨requiredCols, []⟩ 1 4 100).result = .ok () := by
  refine ⟨?_, ?_, ?_, ?_, ?_, ?_⟩
  · exact ((c5_validation ⟨["id", "element_type", "now_cost"], []⟩ 1 4 100).1
      (by decide)).trans
      (congrArg (fun l => (Except.error (FplError.keyError l) : Except FplError Unit))
        (by decide))
  · exact (c5_validation ⟨requiredCols, [⟨1, 1, 1, 50, none, []⟩, ⟨1, 2, 2, 50, none, []⟩]⟩
      0 4 100).2.1 (by decide) (by decide)
  · exact (c5_validation ⟨requiredCols, []⟩ 0 4 100).2.2.1 (by decide) (by decide)
      (by norm_num)
  · exact (c5_validation ⟨requiredCols, []⟩ 1 4 0).2.2.2.1 (by decide) (by decide)
      le_rfl
  · exact ((c5_validation ⟨requiredCols, []⟩ 1 4 100).2.2.2.2.1 (by decide)
      (by decide)).trans (by decide)
  · exact (c5_validation ⟨requiredCols, []⟩ 1 4 100).2.2.2.2.2 (by decide) (by decide)
      (by norm_num) (by norm_num)

/-- C6: the exact solver fails with the infeasibility error on an
infeasible termination status, with a fatal `RuntimeError` on any other
non-optimal status, and with a fatal solver-consistency `RuntimeError`
when the solver reports success but the extracted selection does not have
exactly 15 members. -/
theorem c6_mip_errors (rows : List Player) (wpts : Player → ℚ)
    (oracle : MipOutcome) :
    (oracle.status = .infeasible →
      solveWithMip rows wpts oracle =
        .error (.infeasibleError
          "No feasible solution found - constraints cannot be satisfied")) ∧
    (∀ s, oracle.status = .other s →
      solveWithMip rows wpts oracle =
        .error (.runtimeError ("Solver failed with status: " ++ s))) ∧
    (oracle.status = .optimal →
      ¬ ((rows.filter (fun p => oracle.sel p.id)).map (fun p => p.id)).length = 15 →
      solveWithMip rows wpts oracle =
        .error (.runtimeError "Invalid solution: wrong number of players selected")) := by
  refine ⟨fun h => ?_, fun s h => ?_, fun h hn => ?_⟩
  · unfold solveWithMip
    rw [h]
  · unfold solveWithMip
    rw [h]
  · unfold solveWithMip
    rw [h]
    exact if_pos hn

/-- Witness for C6: an infeasible status, an unknown status, and an
optimal status whose assignment selects nobody from a 16-player-pool
prefix (0 ≠ 15 selected). -/
theorem c6_mip_errors_witness :
    solveWithMip [] (fun _ => 0) ⟨.infeasible, fun _ => false⟩ =
      .error (.infeasibleError
        "No feasible solution found - constraints cannot be satisfied") ∧
    solveWithMip [] (fun _ => 0) ⟨.other "Unbounded", fun _ => false⟩ =
      .error (.runtimeError ("Solver failed with status: " ++ "Unbounded")) ∧
    solveWithMip [⟨1, 1, 1, 50, none, []⟩] (fun _ => 0) ⟨.optimal, fun _ => false⟩ =
      .error (.runtimeError "Invalid solution: wrong number of players selected") :=
  ⟨(c6_mip_errors [] (fun _ => 0) ⟨.infeasible, fun _ => false⟩).1 rfl,
   (c6_mip_errors [] (fun _ => 0) ⟨.other "Unbounded", fun _ => false⟩).2.1 "Unbounded" rfl,
   (c6_mip_errors [⟨1, 1, 1, 50, none, []⟩] (fun _ => 0)
     ⟨.optimal, fun _ => false⟩).2.2 rfl (by decide)⟩

/-! ## Lemmas: cell update and the expected-points builder fold -/

theorem epVal_setEp_same (p : Player) (c : String) (v : ℚ) :
    (p.setEp c v).epVal c = v := by
  unfold Player.setEp Player.epVal
  rw [List.find?_cons_of_pos _ (by simp)]

theorem find?_filter_ne (l : List (String × ℚ)) (c c' : String) (h : ¬ c' = c) :
    (l.filter (fun kv => ¬ kv.1 = c)).find? (fun kv => kv.1 = c') =
      l.find? (fun kv => kv.1 = c') := by
  induction l with
  | nil => rfl
  | cons kv rest ih =>
    by_cases h1 : kv.1 = c
    · rw [List.filter_cons_of_neg (by simp [h1]), ih,
        List.find?_cons_of_neg _
          (by simp only [h1, decide_eq_true_eq]; exact fun hc => h hc.symm)]
    · by_cases h2 : kv.1 = c'
      · rw [List.filter_cons_of_pos (by simp [h1]),
          List.find?_cons_of_pos _ (by simp [h2]),
          List.find?_cons_of_pos _ (by simp [h2])]
      · rw [List.filter_cons_of_pos (by simp [h1]),
          List.find?_cons_of_neg _ (by simp [h2]), ih,
          List.find?_cons_of_neg _ (by simp [h2])]

theorem epVal_setEp_other (p : Player) (c c' : String) (v : ℚ) (h : ¬ c' = c) :
    (p.setEp c v).epVal c' = p.epVal c' := by
  unfold Player.setEp Player.epVal
  rw [List.find?_cons_of_neg _
    (by simp only [decide_eq_true_eq]; exact fun hc => h hc.symm),
    find?_filter_ne _ _ _ h]

theorem foldl_setColAll_rows (l : List (Nat × String))
    (g : Nat × String → Player → ℚ) (tbl : PlayersTable) :
    (l.foldl (fun acc ic => setColAll acc ic.2 (g ic)) tbl).rows =
      tbl.rows.map (fun p => l.foldl (fun q ic => q.setEp ic.2 (g ic q)) p) := by
  induction l generalizing tbl with
  | nil => simp
  | cons ic rest ih =>
    rw [List.foldl_cons, ih]
    show (tbl.rows.map (fun p => p.setEp ic.2 (g ic p))).map _ = _
    rw [List.map_map]
    rfl

theorem foldl_setEp_epVal_not_mem (l : List (Nat × String))
    (v : Player → Nat × String → ℚ) (p : Player) (c : String)
    (hc : ¬ c ∈ l.map Prod.snd) :
    (l.foldl (fun q ic => q.setEp ic.2 (v q ic)) p).epVal c = p.epVal c := by
  induction l generalizing p with
  | nil => rfl
  | cons ic rest ih =>
    rw [List.foldl_cons, ih _ (fun hmem => hc (by simp [hmem]))]
    exact epVal_setEp_other p ic.2 c _ (fun hce => hc (by simp [hce]))

theorem foldl_synth_epVal (ft : FixtureTable) (gwStart : Int)
    (l : List (Nat × String)) (hnd : (l.map Prod.snd).Nodup) (p : Player)
    (i : Nat) (c : String) (hmem : (i, c) ∈ l) :
    (l.foldl (fun q ic =>
        q.setEp ic.2 (basePointsPerGw q * playerMultiplier ft (gwStart + ic.1) q.team))
      p).epVal c =
      basePointsPerGw p * playerMultiplier ft (gwStart + i) p.team := by
  induction l generalizing p with
  | nil => cases hmem
  | cons jc rest ih =>
    rw [List.foldl_cons]
    rcases List.mem_cons.mp hmem with heq | hmem'
    · have hc : ¬ c ∈ rest.map Prod.snd := by
        rw [List.map_cons] at hnd
        have := (List.nodup_cons.mp hnd).1
        rw [← heq] at this
        exact this
      rw [foldl_setEp_epVal_not_mem rest _ _ c hc, ← heq]
      exact epVal_setEp_same p c _
    · exact ih (by rw [List.map_cons] at hnd; exact hnd.of_cons)
        (p.setEp jc.2 (basePointsPerGw p * playerMultiplier ft (gwStart + jc.1) p.team))
        hmem'

theorem foldl_scale_epVal (ft : FixtureTable) (gwStart : Int)
    (l : List (Nat × String)) (hnd : (l.map Prod.snd).Nodup) (p : Player)
    (i : Nat) (c : String) (hmem : (i, c) ∈ l) :
    (l.foldl (fun q ic =>
        q.setEp ic.2 (q.epVal ic.2 * playerMultiplier ft (gwStart + ic.1) q.team))
      p).epVal c =
      p.epVal c * playerMultiplier ft (gwStart + i) p.team := by
  induction l generalizing p with
  | nil => cases hmem
  | cons jc rest ih =>
    rw [List.foldl_cons]
    rcases List.mem_cons.mp hmem with heq | hmem'
    · have hc : ¬ c ∈ rest.map Prod.snd := by
        rw [List.map_cons] at hnd
        have := (List.nodup_cons.mp hnd).1
        rw [← heq] at this
        exact this
      rw [foldl_setEp_epVal_not_mem rest _ _ c hc, ← heq]
      exact epVal_setEp_same p c _
    · have hcne : ¬ c = jc.2 := by
        intro hce
        rw [List.map_cons] at hnd
        exact (List.nodup_cons.mp hnd).1
          (hce ▸ (List.mem_map.mpr ⟨(i, c), hmem', rfl⟩))
      rw [ih (by rw [List.map_cons] at hnd; exact hnd.of_cons) _ hmem',
        epVal_setEp_other p jc.2 c _ hcne]
      rfl

theorem incorporate_rows_synth (tbl : PlayersTable) (ft : FixtureTable)
    (gwStart gwEnd : Int) (epCols : List String)
    (h : ¬ (∀ c ∈ epCols, c ∈ tbl.cols)) :
    (incorporateFixtureDifficulty tbl ft gwStart gwEnd epCols).rows =
      tbl.rows.map (fun p => epCols.enum.foldl (fun q ic =>
        q.setEp ic.2 (basePointsPerGw q * playerMultiplier ft (gwStart + ic.1) q.team))
        p) := by
  unfold incorporateFixtureDifficulty
  rw [if_pos h]
  exact foldl_setColAll_rows epCols.enum
    (fun ic p => basePointsPerGw p * playerMultiplier ft (gwStart + ic.1) p.team) tbl

theorem incorporate_rows_scale (tbl : PlayersTable) (ft : FixtureTable)
    (gwStart gwEnd : Int) (epCols : List String)
    (h : ∀ c ∈ epCols, c ∈ tbl.cols) :
    (incorporateFixtureDifficulty tbl ft gwStart gwEnd epCols).rows =
      tbl.rows.map (fun p => epCols.enum.foldl (fun q ic =>
        q.setEp ic.2 (q.epVal ic.2 * playerMultiplier ft (gwStart + ic.1) q.team))
        p) := by
  unfold incorporateFixtureDifficulty
  rw [if_neg (not_not_intro h)]
  exact foldl_setColAll_rows epCols.enum
    (fun ic p => p.epVal ic.2 * playerMultiplier ft (gwStart + ic.1) p.team) tbl

theorem incorporate_getElem_synth (tbl : PlayersTable) (ft : FixtureTable)
    (gwStart gwEnd : Int) (epCols : List String)
    (h : ¬ (∀ c ∈ epCols, c ∈ tbl.cols)) (j : Nat)
    (hj : j < (incorporateFixtureDifficulty tbl ft gwStart gwEnd epCols).rows.length)
    (hj' : j < tbl.rows.length) :
    (incorporateFixtureDifficulty tbl ft gwStart gwEnd epCols).rows[j] =
      epCols.enum.foldl (fun q ic =>
        q.setEp ic.2 (basePointsPerGw q * playerMultiplier ft (gwStart + ic.1) q.team))
        tbl.rows[j] := by
  rw [List.getElem_of_eq (incorporate_rows_synth tbl ft gwStart gwEnd epCols h) hj,
    List.getElem_map]

theorem incorporate_getElem_scale (tbl : PlayersTable) (ft : FixtureTable)
    (gwStart gwEnd : Int) (epCols : List String)
    (h : ∀ c ∈ epCols, c ∈ tbl.cols) (j : Nat)
    (hj : j < (incorporateFixtureDifficulty tbl ft gwStart gwEnd epCols).rows.length)
    (hj' : j < tbl.rows.length) :
    (incorporateFixtureDifficulty tbl ft gwStart gwEnd epCols).rows[j] =
      epCols.enum.foldl (fun q ic =>
        q.setEp ic.2 (q.epVal ic.2 * playerMultiplier ft (gwStart + ic.1) q.team))
        tbl.rows[j] := by
  rw [List.getElem_of_eq (incorporate_rows_scale tbl ft gwStart gwEnd epCols h) hj,
    List.getElem_map]

theorem enum_snd_nodup (epCols : List String) (hnd : epCols.Nodup) :
    (epCols.enum.map Prod.snd).Nodup := by
  rw [List.enum_map_snd]
  exact hnd

theorem mem_enum_of_getElem (epCols : List String) (i : Nat) (hi : i < epCols.length) :
    (i, epCols[i]) ∈ epCols.enum := by
  rw [List.mem_enum_iff_getElem?]
  exact List.getElem?_eq_getElem hi

/-! ## Claim theorems: expected-points builder -/

/-- C4: for every player table, fixture table and round range, the builder
returns a table of the same length in which, when all the named round
columns already exist, each round's value equals the pre-existing value
times that round's fixture multiplier, and otherwise equals the synthesized
baseline `max(0.5, aggregate_performance/38)` times that round's fixture
multiplier; and the derived windowed expected-points value is the sum of
these per-round values over the round range. -/
theorem c4_expected_points_builder (tbl : PlayersTable) (ft : FixtureTable)
    (gwStart gwEnd : Int) (epCols : List String) (hnd : epCols.Nodup) :
    (incorporateFixtureDifficulty tbl ft gwStart gwEnd epCols).rows.length =
      tbl.rows.length ∧
    (∀ (j i : Nat)
        (hj : j < (incorporateFixtureDifficulty tbl ft gwStart gwEnd epCols).rows.length)
        (hj' : j < tbl.rows.length) (hi : i < epCols.length),
      ((∀ c ∈ epCols, c ∈ tbl.cols) →
        ((incorporateFixtureDifficulty tbl ft gwStart gwEnd epCols).rows[j]).epVal
            epCols[i] =
          (tbl.rows[j]).epVal epCols[i] *
            playerMultiplier ft (gwStart + (i : Int)) (tbl.rows[j]).team) ∧
      (¬ (∀ c ∈ epCols, c ∈ tbl.cols) →
        ((incorporateFixtureDifficulty tbl ft gwStart gwEnd epCols).rows[j]).epVal
            epCols[i] =
          basePointsPerGw tbl.rows[j] *
            playerMultiplier ft (gwStart + (i : Int)) (tbl.rows[j]).team)) ∧
    (∀ (j : Nat)
        (hj : j < (incorporateFixtureDifficulty tbl ft gwStart gwEnd epCols).rows.length)
        (hj' : j < tbl.rows.length),
      ((∀ c ∈ epCols, c ∈ tbl.cols) →
        expPtsWindowOf epCols
            ((incorporateFixtureDifficulty tbl ft gwStart gwEnd epCols).rows[j]) =
          (epCols.enum.map (fun ic => (tbl.rows[j]).epVal ic.2 *
            playerMultiplier ft (gwStart + (ic.1 : Int)) (tbl.rows[j]).team)).sum) ∧
      (¬ (∀ c ∈ epCols, c ∈ tbl.cols) →
        expPtsWindowOf epCols
            ((incorporateFixtureDifficulty tbl ft gwStart gwEnd epCols).rows[j]) =
          (epCols.enum.map (fun ic => basePointsPerGw tbl.rows[j] *
            playerMultiplier ft (gwStart + (ic.1 : Int)) (tbl.rows[j]).team)).sum)) := by
  refine ⟨?_, ?_, ?_⟩
  · by_cases hall : ∀ c ∈ epCols, c ∈ tbl.cols
    · rw [incorporate_rows_scale tbl ft gwStart gwEnd epCols hall, List.length_map]
    · rw [incorporate_rows_synth tbl ft gwStart gwEnd epCols hall, List.length_map]
  · intro j i hj hj' hi
    constructor
    · intro hall
      rw [incorporate_getElem_scale tbl ft gwStart gwEnd epCols hall j hj hj']
      exact foldl_scale_epVal ft gwStart epCols.enum (enum_snd_nodup epCols hnd)
        tbl.rows[j] i epCols[i] (mem_enum_of_getElem epCols i hi)
    · intro hall
      rw [incorporate_getElem_synth tbl ft gwStart gwEnd epCols hall j hj hj']
      exact foldl_synth_epVal ft gwStart epCols.enum (enum_snd_nodup epCols hnd)
        tbl.rows[j] i epCols[i] (mem_enum_of_getElem epCols i hi)
  · intro j hj hj'
    have hwin : ∀ q : Player, expPtsWindowOf epCols q =
        (epCols.enum.map (fun ic => q.epVal ic.2)).sum := by
      intro q
      unfold expPtsWindowOf
      conv_lhs => rw [← List.enum_map_snd epCols, List.map_map]
      rfl
    constructor
    · intro hall
      rw [incorporate_getElem_scale tbl ft gwStart gwEnd epCols hall j hj hj', hwin]
      refine congrArg List.sum (List.map_congr_left ?_)
      intro ic hic
      exact foldl_scale_epVal ft gwStart epCols.enum (enum_snd_nodup epCols hnd)
        tbl.rows[j] ic.1 ic.2 hic
    · intro hall
      rw [incorporate_getElem_synth tbl ft gwStart gwEnd epCols hall j hj hj', hwin]
      refine congrArg List.sum (List.map_congr_left ?_)
      intro ic hic
      exact foldl_synth_epVal ft gwStart epCols.enum (enum_snd_nodup epCols hnd)
        tbl.rows[j] ic.1 ic.2 hic

/-- Witness for C4 on one-player tables: with the named column present
(value 5/2) and a difficulty-2 home fixture the value becomes
5/2 × 1.2 = 3 and so does the window; with no columns present the
synthesized baseline max(0.5, 76/38) × 1.2 = 12/5 is used. -/
theorem c4_expected_points_builder_witness :
    ((incorporateFixtureDifficulty
        ⟨["ep_gw1"], [⟨1, 1, 1, 50, some 76, [("ep_gw1", 5/2)]⟩]⟩
        ⟨true, [⟨some 1, some 1, some 2, some 2, some 4⟩]⟩ 1 1 ["ep_gw1"]).rows.get
      ⟨0, by with_unfolding_all decide⟩).epVal "ep_gw1" = 3 ∧
    expPtsWindowOf ["ep_gw1"]
      ((incorporateFixtureDifficulty
        ⟨["ep_gw1"], [⟨1, 1, 1, 50, some 76, [("ep_gw1", 5/2)]⟩]⟩
        ⟨true, [⟨some 1, some 1, some 2, some 2, some 4⟩]⟩ 1 1 ["ep_gw1"]).rows.get
      ⟨0, by with_unfolding_all decide⟩) = 3 ∧
    ((incorporateFixtureDifficulty
        ⟨[], [⟨1, 1, 1, 50, some 76, []⟩]⟩
        ⟨true, [⟨some 1, some 1, some 2, some 2, some 4⟩]⟩ 1 1 ["ep_gw1"]).rows.get
      ⟨0, by with_unfolding_all decide⟩).epVal "ep_gw1" = 12/5 := by
  refine ⟨?_, ?_, ?_⟩
  · exact (((c4_expected_points_builder
      ⟨["ep_gw1"], [⟨1, 1, 1, 50, some 76, [("ep_gw1", 5/2)]⟩]⟩
      ⟨true, [⟨some 1, some 1, some 2, some 2, some 4⟩]⟩ 1 1 ["ep_gw1"]
      (by decide)).2.1 0 0 (by with_unfolding_all decide) (by decide) (by decide)).1
      (by decide)).trans (by with_unfolding_all rfl)
  · exact (((c4_expected_points_builder
      ⟨["ep_gw1"], [⟨1, 1, 1, 50, some 76, [("ep_gw1", 5/2)]⟩]⟩
      ⟨true, [⟨some 1, some 1, some 2, some 2, some 4⟩]⟩ 1 1 ["ep_gw1"]
      (by decide)).2.2 0 (by with_unfolding_all decide) (by decide)).1
      (by decide)).trans (by with_unfolding_all rfl)
  · exact (((c4_expected_points_builder
      ⟨[], [⟨1, 1, 1, 50, some 76, []⟩]⟩
      ⟨true, [⟨some 1, some 1, some 2, some 2, some 4⟩]⟩ 1 1 ["ep_gw1"]
      (by decide)).2.1 0 0 (by with_unfolding_all decide) (by decide) (by decide)).2
      (by decide)).trans (by with_unfolding_all rfl)

/-- C10: when at least one but not all named round columns are present,
the builder takes the synthesized branch — it ignores every pre-existing
value and overwrites each named column with
`max(0.5, aggregate_performance/38) × fixture multiplier`; and a player
with a missing aggregate-performance cell gets baseline 50/38 (the 0.5
floor is inactive there since 50/38 > 0.5). -/
theorem c10_partial_columns (tbl : PlayersTable) (ft : FixtureTable)
    (gwStart gwEnd : Int) (epCols : List String) (hnd : epCols.Nodup)
    (_hsome : ∃ c ∈ epCols, c ∈ tbl.cols)
    (hmiss : ∃ c ∈ epCols, ¬ c ∈ tbl.cols) :
    (∀ (j i : Nat)
        (hj : j < (incorporateFixtureDifficulty tbl ft gwStart gwEnd epCols).rows.length)
        (hj' : j < tbl.rows.length) (hi : i < epCols.length),
      ((incorporateFixtureDifficulty tbl ft gwStart gwEnd epCols).rows[j]).epVal
          epCols[i] =
        basePointsPerGw tbl.rows[j] *
          playerMultiplier ft (gwStart + (i : Int)) (tbl.rows[j]).team) ∧
    (∀ p : Player, p.totalPoints = none → basePointsPerGw p = 50 / 38) := by
  have hnotall : ¬ (∀ c ∈ epCols, c ∈ tbl.cols) := by
    rcases hmiss with ⟨c, hc1, hc2⟩
    exact fun hall => hc2 (hall c hc1)
  refine ⟨fun j i hj hj' hi => ?_, fun p hp => ?_⟩
  · rw [incorporate_getElem_synth tbl ft gwStart gwEnd epCols hnotall j hj hj']
    exact foldl_synth_epVal ft gwStart epCols.enum (enum_snd_nodup epCols hnd)
      tbl.rows[j] i epCols[i] (mem_enum_of_getElem epCols i hi)
  · unfold basePointsPerGw
    rw [hp]
    show max 0.5 ((50 : ℚ)/38) = 50/38
    rw [max_eq_right (by norm_num)]

/-- Witness for C10: the round column `ep_gw1` exists with value 9 but
`ep_gw2` is absent; with no fixtures the builder overwrites `ep_gw1` with
the baseline 50/38 of a missing aggregate-performance cell, discarding the
pre-existing 9. -/
theorem c10_partial_columns_witness :
    ((incorporateFixtureDifficulty
        ⟨["ep_gw1"], [⟨1, 1, 1, 50, none, [("ep_gw1", 9)]⟩]⟩
        ⟨false, []⟩ 1 2 ["ep_gw1", "ep_gw2"]).rows.get
      ⟨0, by with_unfolding_all decide⟩).epVal "ep_gw1" = 50/38 ∧
    basePointsPerGw ⟨1, 1, 1, 50, none, [("ep_gw1", 9)]⟩ = 50/38 := by
  constructor
  · exact ((c10_partial_columns ⟨["ep_gw1"], [⟨1, 1, 1, 50, none, [("ep_gw1", 9)]⟩]⟩
      ⟨false, []⟩ 1 2 ["ep_gw1", "ep_gw2"] (by decide)
      ⟨"ep_gw1", by decide, by decide⟩ ⟨"ep_gw2", by decide, by decide⟩).1
      0 0 (by with_unfolding_all decide) (by decide) (by decide)).trans
      (by with_unfolding_all rfl)
  · exact (c10_partial_columns ⟨["ep_gw1"], [⟨1, 1, 1, 50, none, [("ep_gw1", 9)]⟩]⟩
      ⟨false, []⟩ 1 2 ["ep_gw1", "ep_gw2"] (by decide)
      ⟨"ep_gw1", by decide, by decide⟩ ⟨"ep_gw2", by decide, by decide⟩).2
      ⟨1, 1, 1, 50, none, [("ep_gw1", 9)]⟩ rfl

/-! ## Lemmas: the greedy heuristic -/

theorem clubCount_append (sel more : List Player) (t : Int) :
    clubCount (sel ++ more) t = clubCount sel t + clubCount more t := by
  unfold clubCount
  rw [List.filter_append, List.length_append]

theorem clubCount_singleton (p : Player) (t : Int) :
    clubCount [p] t = if p.team = t then 1 else 0 := by
  unfold clubCount
  by_cases h : p.team = t <;> simp [h]

theorem gaScan_spec (limit : Nat) (checkDup : Bool) (cands sel : List Player)
    (rem : Int) (cnt : Nat) :
    ∃ added : List Player,
      (gaScan limit checkDup cands sel rem cnt).1 = sel ++ added ∧
      (∀ p ∈ added, p ∈ cands) ∧
      (gaScan limit checkDup cands sel rem cnt).2.1 =
        rem - (added.map (fun p => p.nowCost)).sum ∧
      (gaScan limit checkDup cands sel rem cnt).2.2 = cnt + added.length ∧
      (0 ≤ rem → 0 ≤ (gaScan limit checkDup cands sel rem cnt).2.1) ∧
      ((∀ t, clubCount sel t ≤ 3) →
        ∀ t, clubCount (gaScan limit checkDup cands sel rem cnt).1 t ≤ 3) ∧
      (cnt ≤ limit → (gaScan limit checkDup cands sel rem cnt).2.2 ≤ limit) := by
  induction cands generalizing sel rem cnt with
  | nil =>
    exact ⟨[], by simp [gaScan], by simp, by simp [gaScan], by simp [gaScan],
      fun h => by simpa [gaScan] using h, fun h => by simpa [gaScan] using h,
      fun h => by simpa [gaScan] using h⟩
  | cons p rest ih =>
    by_cases h1 : limit ≤ cnt
    · refine ⟨[], ?_, by simp, ?_, ?_, ?_, ?_, ?_⟩ <;>
        simp [gaScan, if_pos h1]
    · by_cases h2 : p.nowCost ≤ rem ∧
          (checkDup = true → ¬ p.id ∈ sel.map (fun q => q.id)) ∧
          clubCount sel p.team < 3
      · have hg : gaScan limit checkDup (p :: rest) sel rem cnt =
            gaScan limit checkDup rest (sel ++ [p]) (rem - p.nowCost) (cnt + 1) := by
          rw [gaScan, if_neg h1, if_pos h2]
        obtain ⟨added', ha1, ha2, ha3, ha4, ha5, ha6, ha7⟩ :=
          ih (sel ++ [p]) (rem - p.nowCost) (cnt + 1)
        refine ⟨p :: added', ?_, ?_, ?_, ?_, ?_, ?_, ?_⟩
        · rw [hg, ha1, List.append_assoc]
          rfl
        · intro q hq
          rcases List.mem_cons.mp hq with hq | hq
          · exact hq ▸ List.mem_cons_self p rest
          · exact List.mem_cons_of_mem p (ha2 q hq)
        · rw [hg, ha3, List.map_cons, List.sum_cons]
          ring
        · rw [hg, ha4, List.length_cons]
          omega
        · intro h0
          rw [hg]
          exact ha5 (by omega)
        · intro hcl
          rw [hg]
          refine ha6 ?_
          intro t
          rw [clubCount_append, clubCount_singleton]
          by_cases ht : p.team = t
          · have := h2.2.2
            rw [ht] at this
            rw [if_pos ht]
            omega
          · rw [if_neg ht]
            have := hcl t
            omega
        · intro hle
          rw [hg]
          exact ha7 (by omega)
      · have hg : gaScan limit checkDup (p :: rest) sel rem cnt =
            gaScan limit checkDup rest sel rem cnt := by
          rw [gaScan, if_neg h1, if_neg h2]
        obtain ⟨added', ha1, ha2, ha3, ha4, ha5, ha6, ha7⟩ := ih sel rem cnt
        exact ⟨added', by rw [hg]; exact ha1,
          fun q hq => List.mem_cons_of_mem p (ha2 q hq),
          by rw [hg]; exact ha3, by rw [hg]; exact ha4,
          fun h0 => by rw [hg]; exact ha5 h0,
          fun hcl => by rw [hg]; exact ha6 hcl,
          fun hle => by rw [hg]; exact ha7 hle⟩


theorem mem_of_rankedByValue (wpts : Player → ℚ) (l : List Player) (p : Player)
    (h : p ∈ rankedByValue wpts l) : p ∈ l :=
  List.mem_mergeSort.mp h

theorem mem_of_rankedByCost (l : List Player) (p : Player)
    (h : p ∈ rankedByCost l) : p ∈ l :=
  List.mem_mergeSort.mp h

theorem gaTwoPass_spec (limit : Nat) (ranked sel : List Player) (rem : Int) :
    ∃ added : List Player,
      (gaTwoPass limit ranked sel rem).1 = sel ++ added ∧
      (∀ p ∈ added, p ∈ ranked) ∧
      (gaTwoPass limit ranked sel rem).2.1 =
        rem - (added.map (fun p => p.nowCost)).sum ∧
      (gaTwoPass limit ranked sel rem).2.2 = added.length ∧
      (0 ≤ rem → 0 ≤ (gaTwoPass limit ranked sel rem).2.1) ∧
      ((∀ t, clubCount sel t ≤ 3) →
        ∀ t, clubCount (gaTwoPass limit ranked sel rem).1 t ≤ 3) ∧
      (gaTwoPass limit ranked sel rem).2.2 ≤ limit := by
  obtain ⟨a1, h11, h12, h13, h14, h15, h16, h17⟩ :=
    gaScan_spec limit false ranked sel rem 0
  by_cases hlt : (gaScan limit false ranked sel rem 0).2.2 < limit
  · have hg : gaTwoPass limit ranked sel rem =
        gaScan limit true (rankedByCost ranked)
          (gaScan limit false ranked sel rem 0).1
          (gaScan limit false ranked sel rem 0).2.1
          (gaScan limit false ranked sel rem 0).2.2 := by
      unfold gaTwoPass
      rw [if_pos hlt]
    obtain ⟨a2, h21, h22, h23, h24, h25, h26, h27⟩ :=
      gaScan_spec limit true (rankedByCost ranked)
        (gaScan limit false ranked sel rem 0).1
        (gaScan limit false ranked sel rem 0).2.1
        (gaScan limit false ranked sel rem 0).2.2
    refine ⟨a1 ++ a2, ?_, ?_, ?_, ?_, ?_, ?_, ?_⟩
    · rw [hg, h21, h11, List.append_assoc]
    · intro p hp
      rcases List.mem_append.mp hp with hp | hp
      · exact h12 p hp
      · exact mem_of_rankedByCost ranked p (h22 p hp)
    · rw [hg, h23, h13, List.map_append, List.sum_append]
      ring
    · rw [hg, h24, h14, List.length_append]
      omega
    · intro h0
      rw [hg]
      exact h25 (h15 h0)
    · intro hcl
      rw [hg]
      exact h26 (h16 hcl)
    · rw [hg]
      exact h27 (le_of_lt hlt)
  · have hg : gaTwoPass limit ranked sel rem = gaScan limit false ranked sel rem 0 := by
      unfold gaTwoPass
      rw [if_neg hlt]
    rw [hg]
    exact ⟨a1, h11, h12, h13, by omega, h15, h16, by omega⟩

theorem fillPosition_spec (players : List Player) (wpts : Player → ℚ) (etype : Int)
    (lab : String) (limit : Nat) (sel : List Player) (rem : Int) :
    (∀ res, fillPosition players wpts etype lab limit sel rem = .ok res →
      ∃ added : List Player,
        res.1 = sel ++ added ∧
        (∀ p ∈ added, p.elementType = etype ∧ p ∈ players) ∧
        added.length = limit ∧
        res.2 = rem - (added.map (fun p => p.nowCost)).sum ∧
        (0 ≤ rem → 0 ≤ res.2) ∧
        ((∀ t, clubCount sel t ≤ 3) → ∀ t, clubCount res.1 t ≤ 3)) ∧
    (∀ e, fillPosition players wpts etype lab limit sel rem = .error e →
      ∃ got rem2, e = .infeasibleFill lab limit got rem2 ∧ got < limit) := by
  have hmemc : ∀ p ∈ rankedByValue wpts (posCandidates players etype),
      p.elementType = etype ∧ p ∈ players := by
    intro p hp
    have := List.mem_filter.mp (mem_of_rankedByValue _ _ _ hp)
    exact ⟨by simpa using this.2, this.1⟩
  obtain ⟨added, h1, h2, h3, h4, h5, h6, h7⟩ :=
    gaTwoPass_spec limit (rankedByValue wpts (posCandidates players etype)) sel rem
  by_cases hlt : (gaTwoPass limit (rankedByValue wpts (posCandidates players etype))
      sel rem).2.2 < limit
  · have hfp : fillPosition players wpts etype lab limit sel rem =
        .error (.infeasibleFill lab limit
          (gaTwoPass limit (rankedByValue wpts (posCandidates players etype)) sel rem).2.2
          (gaTwoPass limit (rankedByValue wpts (posCandidates players etype)) sel rem).2.1) := by
      unfold fillPosition
      rw [if_pos hlt]
    constructor
    · intro res hres
      rw [hfp] at hres
      cases hres
    · intro e he
      rw [hfp] at he
      injection he with he
      exact ⟨_, _, he.symm, hlt⟩
  · have hfp : fillPosition players wpts etype lab limit sel rem =
        .ok ((gaTwoPass limit (rankedByValue wpts (posCandidates players etype)) sel rem).1,
          (gaTwoPass limit (rankedByValue wpts (posCandidates players etype)) sel rem).2.1) := by
      unfold fillPosition
      rw [if_neg hlt]
    constructor
    · intro res hres
      rw [hfp] at hres
      injection hres with hres
      refine ⟨added, ?_, fun p hp => hmemc p (h2 p hp), ?_, ?_, ?_, ?_⟩
      · rw [← hres]
        exact h1
      · omega
      · rw [← hres]
        exact h3
      · intro h0
        rw [← hres]
        exact h5 h0
      · intro hcl
        rw [← hres]
        exact h6 hcl
    · intro e he
      rw [hfp] at he
      cases he

theorem filter_filter_comm (l : List Player) (f g : Player → Bool) :
    (l.filter f).filter g = (l.filter g).filter f := by
  rw [List.filter_filter, List.filter_filter]
  exact List.filter_congr (fun p _ => by rw [Bool.and_comm])

/-- The squad invariants of the specification: 15 players, the 2/5/5/3
position-class quotas, total cost within the budget, at most 3 per club. -/
def squadOk (r : SquadResult) (budget : ℚ) : Prop :=
  r.squadRows.length = 15 ∧
  (r.squadRows.filter (fun p => p.elementType = 1)).length = 2 ∧
  (r.squadRows.filter (fun p => p.elementType = 2)).length = 5 ∧
  (r.squadRows.filter (fun p => p.elementType = 3)).length = 5 ∧
  (r.squadRows.filter (fun p => p.elementType = 4)).length = 3 ∧
  r.totalCost ≤ budget ∧
  (∀ t : Int, clubCount r.squadRows t ≤ 3)

theorem budgetUnits_nonneg (budget : ℚ) (hb : 0 < budget) : 0 ≤ budgetUnits budget := by
  unfold budgetUnits
  exact Int.floor_nonneg.mpr (by positivity)

theorem cost_le_budget (s : Int) (budget : ℚ) (hs : s ≤ budgetUnits budget) :
    (s : ℚ) / 10 ≤ budget := by
  have h1 : ((budgetUnits budget : Int) : ℚ) ≤ budget * 10 := Int.floor_le _
  have h2 : (s : ℚ) ≤ ((budgetUnits budget : Int) : ℚ) := by exact_mod_cast hs
  linarith

theorem filter_len_of_all (l : List Player) (f : Player → Bool)
    (h : ∀ p ∈ l, f p = true) : (l.filter f).length = l.length := by
  rw [List.filter_eq_self.mpr h]

theorem filter_len_of_none (l : List Player) (f : Player → Bool)
    (h : ∀ p ∈ l, ¬ f p = true) : (l.filter f).length = 0 := by
  rw [List.filter_eq_nil_iff.mpr h, List.length_nil]

theorem solveWithGa_props (rows : List Player) (wpts : Player → ℚ) (budget : ℚ)
    (hb : 0 < budget) (r : SquadResult)
    (h : solveWithGa rows wpts budget = .ok r) : squadOk r budget := by
  unfold solveWithGa at h
  split at h
  · cases h
  next sel1 rem1 heq1 =>
  split at h
  · cases h
  next sel2 rem2 heq2 =>
  split at h
  · cases h
  next sel3 rem3 heq3 =>
  split at h
  · cases h
  next sel4 rem4 heq4 =>
  split at h
  · cases h
  next h15 =>
  injection h with h
  subst h
  rw [not_not] at h15
  obtain ⟨a1, e1, m1, l1, r1, p1, c1⟩ :=
    (fillPosition_spec rows wpts 1 "GK" 2 [] (budgetUnits budget)).1 (sel1, rem1) heq1
  obtain ⟨a2, e2, m2, l2, r2, p2, c2⟩ :=
    (fillPosition_spec rows wpts 2 "DEF" 5 sel1 rem1).1 (sel2, rem2) heq2
  obtain ⟨a3, e3, m3, l3, r3, p3, c3⟩ :=
    (fillPosition_spec rows wpts 3 "MID" 5 sel2 rem2).1 (sel3, rem3) heq3
  obtain ⟨a4, e4, m4, l4, r4, p4, c4⟩ :=
    (fillPosition_spec rows wpts 4 "FWD" 3 sel3 rem3).1 (sel4, rem4) heq4
  dsimp only at e1 e2 e3 e4 r1 r2 r3 r4 p1 p2 p3 p4 c1 c2 c3 c4
  have hs4 : sel4 = a1 ++ a2 ++ a3 ++ a4 := by
    rw [e4, e3, e2, e1, List.nil_append]
  have hcount : ∀ e : Int,
      ((a1 ++ a2 ++ a3 ++ a4).filter (fun p => p.elementType = e)).length =
        (a1.filter (fun p => p.elementType = e)).length +
        (a2.filter (fun p => p.elementType = e)).length +
        (a3.filter (fun p => p.elementType = e)).length +
        (a4.filter (fun p => p.elementType = e)).length := by
    intro e
    rw [List.filter_append, List.filter_append, List.filter_append,
      List.length_append, List.length_append, List.length_append]
  refine ⟨h15, ?_, ?_, ?_, ?_, ?_, ?_⟩
  · show (sel4.filter (fun p => p.elementType = 1)).length = 2
    rw [hs4, hcount,
      filter_len_of_all a1 _ (fun p hp => by simp [(m1 p hp).1]),
      filter_len_of_none a2 _ (fun p hp => by simp [(m2 p hp).1]),
      filter_len_of_none a3 _ (fun p hp => by simp [(m3 p hp).1]),
      filter_len_of_none a4 _ (fun p hp => by simp [(m4 p hp).1]), l1]
  · show (sel4.filter (fun p => p.elementType = 2)).length = 5
    rw [hs4, hcount,
      filter_len_of_none a1 _ (fun p hp => by simp [(m1 p hp).1]),
      filter_len_of_all a2 _ (fun p hp => by simp [(m2 p hp).1]),
      filter_len_of_none a3 _ (fun p hp => by simp [(m3 p hp).1]),
      filter_len_of_none a4 _ (fun p hp => by simp [(m4 p hp).1]), l2]
  · show (sel4.filter (fun p => p.elementType = 3)).length = 5
    rw [hs4, hcount,
      filter_len_of_none a1 _ (fun p hp => by simp [(m1 p hp).1]),
      filter_len_of_none a2 _ (fun p hp => by simp [(m2 p hp).1]),
      filter_len_of_all a3 _ (fun p hp => by simp [(m3 p hp).1]),
      filter_len_of_none a4 _ (fun p hp => by simp [(m4 p hp).1]), l3]
  · show (sel4.filter (fun p => p.elementType = 4)).length = 3
    rw [hs4, hcount,
      filter_len_of_none a1 _ (fun p hp => by simp [(m1 p hp).1]),
      filter_len_of_none a2 _ (fun p hp => by simp [(m2 p hp).1]),
      filter_len_of_none a3 _ (fun p hp => by simp [(m3 p hp).1]),
      filter_len_of_all a4 _ (fun p hp => by simp [(m4 p hp).1]), l4]
  · show ((sel4.map (fun p => p.nowCost)).sum : ℚ) / 10 ≤ budget
    have hbu0 : (0 : Int) ≤ budgetUnits budget := budgetUnits_nonneg budget hb
    have hr4 : rem4 = budgetUnits budget -
        ((sel4.map (fun p => p.nowCost)).sum) := by
      rw [r4, r3, r2, r1, hs4]
      rw [List.map_append, List.map_append, List.map_append,
        List.sum_append, List.sum_append, List.sum_append]
      ring
    have hpos : (0 : Int) ≤ rem4 := p4 (p3 (p2 (p1 hbu0)))
    have hle : (sel4.map (fun p => p.nowCost)).sum ≤ budgetUnits budget := by omega
    have hcast : (sel4.map (fun p => (p.nowCost : ℚ))).sum =
        (((sel4.map (fun p => p.nowCost)).sum : Int) : ℚ) := by
      rw [Int.cast_list_sum, List.map_map]
      rfl
    show (sel4.map (fun p => (p.nowCost : ℚ))).sum / 10 ≤ budget
    rw [hcast]
    exact cost_le_budget _ budget hle
  · intro t
    show clubCount sel4 t ≤ 3
    exact c4 (c3 (c2 (c1 (fun t' => by simp [clubCount])))) t

theorem mip_filter_eq (rows : List Player) (sel : Int → Bool)
    (hnodup : (rows.map (fun p => p.id)).Nodup) :
    rows.filter (fun p =>
      p.id ∈ (rows.filter (fun q => sel q.id)).map (fun q => q.id)) =
    rows.filter (fun p => sel p.id) := by
  apply List.filter_congr
  intro p hp
  have hiff : (p.id ∈ (rows.filter (fun q => sel q.id)).map (fun q => q.id)) ↔
      sel p.id = true := by
    constructor
    · intro hmem
      obtain ⟨q, hqmem, hqid⟩ := List.mem_map.mp hmem
      obtain ⟨hqrows, hqsel⟩ := List.mem_filter.mp hqmem
      have := List.inj_on_of_nodup_map hnodup hqrows hp hqid
      rw [← this]
      exact hqsel
    · intro hs
      exact List.mem_map.mpr ⟨p, List.mem_filter.mpr ⟨hp, hs⟩, rfl⟩
  cases hs : sel p.id
  · exact decide_eq_false (fun hmem => by rw [hiff.mp hmem] at hs; cases hs)
  · exact decide_eq_true (hiff.mpr hs)

theorem solveWithMip_props (rows : List Player) (wpts : Player → ℚ)
    (outcome : MipOutcome) (budget : ℚ)
    (hnodup : (rows.map (fun p => p.id)).Nodup)
    (hfeas : outcome.status = .optimal →
      mipConstraintsOk rows outcome.sel (budgetUnits budget))
    (r : SquadResult) (h : solveWithMip rows wpts outcome = .ok r) :
    squadOk r budget := by
  unfold solveWithMip at h
  split at h
  · cases h
  · cases h
  next heqst =>
  rw [heqst] at hfeas
  obtain ⟨k15, k1, k2, k3, k4, kcost, kclub⟩ := hfeas rfl
  dsimp only at h
  split at h
  · cases h
  next hn15 =>
  injection h with h
  subst h
  have hsq : rows.filter (fun p =>
      p.id ∈ (rows.filter (fun q => outcome.sel q.id)).map (fun q => q.id)) =
      rows.filter (fun p => outcome.sel p.id) :=
    mip_filter_eq rows outcome.sel hnodup
  refine ⟨?_, ?_, ?_, ?_, ?_, ?_, ?_⟩
  · show (rows.filter (fun p =>
      p.id ∈ (rows.filter (fun q => outcome.sel q.id)).map (fun q => q.id))).length = 15
    rw [hsq]
    exact k15
  · show ((rows.filter (fun p =>
      p.id ∈ (rows.filter (fun q => outcome.sel q.id)).map (fun q => q.id))).filter
        (fun p => p.elementType = 1)).length = 2
    rw [hsq, filter_filter_comm]
    exact k1
  · show ((rows.filter (fun p =>
      p.id ∈ (rows.filter (fun q => outcome.sel q.id)).map (fun q => q.id))).filter
        (fun p => p.elementType = 2)).length = 5
    rw [hsq, filter_filter_comm]
    exact k2
  · show ((rows.filter (fun p =>
      p.id ∈ (rows.filter (fun q => outcome.sel q.id)).map (fun q => q.id))).filter
        (fun p => p.elementType = 3)).length = 5
    rw [hsq, filter_filter_comm]
    exact k3
  · show ((rows.filter (fun p =>
      p.id ∈ (rows.filter (fun q => outcome.sel q.id)).map (fun q => q.id))).filter
        (fun p => p.elementType = 4)).length = 3
    rw [hsq, filter_filter_comm]
    exact k4
  · show ((rows.filter (fun p =>
      p.id ∈ (rows.filter (fun q => outcome.sel q.id)).map (fun q => q.id))).map
        (fun p => (p.nowCost : ℚ))).sum / 10 ≤ budget
    rw [hsq]
    have hcast : ((rows.filter (fun p => outcome.sel p.id)).map
        (fun p => (p.nowCost : ℚ))).sum =
        ((((rows.filter (fun p => outcome.sel p.id)).map
          (fun p => p.nowCost)).sum : Int) : ℚ) := by
      rw [Int.cast_list_sum, List.map_map]
      rfl
    rw [hcast]
    exact cost_le_budget _ budget kcost
  · intro t
    show clubCount (rows.filter (fun p =>
      p.id ∈ (rows.filter (fun q => outcome.sel q.id)).map (fun q => q.id))) t ≤ 3
    rw [hsq]
    unfold clubCount
    rw [filter_filter_comm]
    exact kclub t

theorem foldl_setEp_id (l : List (Nat × String)) (v : Player → Nat × String → ℚ)
    (p : Player) :
    (l.foldl (fun q ic => q.setEp ic.2 (v q ic)) p).id = p.id := by
  induction l generalizing p with
  | nil => rfl
  | cons ic rest ih => exact ih (p.setEp ic.2 (v p ic))

theorem incorporate_ids (tbl : PlayersTable) (ft : FixtureTable)
    (gwStart gwEnd : Int) (epCols : List String) :
    (incorporateFixtureDifficulty tbl ft gwStart gwEnd epCols).rows.map
      (fun p => p.id) = tbl.rows.map (fun p => p.id) := by
  by_cases hall : ∀ c ∈ epCols, c ∈ tbl.cols
  · rw [incorporate_rows_scale tbl ft gwStart gwEnd epCols hall, List.map_map]
    exact List.map_congr_left (fun p _ => foldl_setEp_id epCols.enum
      (fun q ic => q.epVal ic.2 * playerMultiplier ft (gwStart + ic.1) q.team) p)
  · rw [incorporate_rows_synth tbl ft gwStart gwEnd epCols hall, List.map_map]
    exact List.map_congr_left (fun p _ => foldl_setEp_id epCols.enum
      (fun q ic => basePointsPerGw q * playerMultiplier ft (gwStart + ic.1) q.team) p)

theorem validateInputs_ok (tbl : PlayersTable) (gwStart gwEnd : Int) (budget : ℚ)
    (h : (validateInputs tbl gwStart gwEnd budget).result = .ok ()) :
    hasDuplicateIds tbl = false ∧ 0 < budget := by
  unfold validateInputs at h
  dsimp only at h
  split_ifs at h with h1 h2 h3 h4
  any_goals cases h
  refine ⟨?_, lt_of_not_le h4⟩
  rw [← Bool.not_eq_true]
  exact h2

theorem nodup_ids_of_not_dup (tbl : PlayersTable)
    (h : hasDuplicateIds tbl = false) :
    (tbl.rows.map (fun p => p.id)).Nodup := by
  unfold hasDuplicateIds at h
  simpa using h

/-- C1: for every player table and fixture table on which validation
succeeds, and under the solver contract for the exact backend (an optimal
status comes with an assignment satisfying the formulated constraints), a
successful `select_squad` call — through either the exact or the heuristic
solver — returns a squad of exactly 15 players with exactly 2/5/5/3 players
of the four position classes, summed cost within the budget, and at most 3
players from any club. -/
theorem c1_select_squad (tbl : PlayersTable) (ft : FixtureTable)
    (gwStart gwEnd : Int) (budget : ℚ) (epColsOpt : Option (List String))
    (oracle : MipOutcome)
    (hcontract : oracle.status = .optimal →
      mipConstraintsOk
        (incorporateFixtureDifficulty tbl ft gwStart gwEnd
          (epColsOpt.getD (defaultEpCols gwStart gwEnd))).rows
        oracle.sel (budgetUnits budget)) :
    (∀ r, selectSquad tbl ft gwStart gwEnd budget .mip epColsOpt oracle = .ok r →
      squadOk r budget) ∧
    (∀ r, selectSquad tbl ft gwStart gwEnd budget .ga epColsOpt oracle = .ok r →
      squadOk r budget) := by
  constructor
  · intro r h
    unfold selectSquad at h
    split at h
    · cases h
    next u hvok =>
    dsimp only at h
    have hval := validateInputs_ok tbl gwStart gwEnd budget hvok
    have hnodup : ((incorporateFixtureDifficulty tbl ft gwStart gwEnd
        (epColsOpt.getD (defaultEpCols gwStart gwEnd))).rows.map
          (fun p => p.id)).Nodup := by
      rw [incorporate_ids]
      exact nodup_ids_of_not_dup tbl hval.1
    exact solveWithMip_props _ _ oracle budget hnodup hcontract r h
  · intro r h
    unfold selectSquad at h
    split at h
    · cases h
    next u hvok =>
    dsimp only at h
    have hval := validateInputs_ok tbl gwStart gwEnd budget hvok
    exact solveWithGa_props _ _ budget hval.2 r h

theorem countP_eq_le_one (l : List Int) (h : l.Nodup) (c : Int) :
    l.countP (fun x => decide (x = c)) ≤ 1 := by
  induction l with
  | nil => simp
  | cons a rest ih =>
    rw [List.countP_cons]
    rcases List.nodup_cons.mp h with ⟨hna, hrest⟩
    by_cases hac : a = c
    · subst hac
      have hz : rest.countP (fun x => decide (x = a)) = 0 := by
        rw [List.countP_eq_zero]
        intro b hb
        simp only [decide_eq_true_eq]
        intro hba
        exact hna (hba ▸ hb)
      simp [hz]
    · simp only [hac, decide_eq_true_eq, if_false, decide_False]
      simpa using ih hrest

theorem filter_team_le_one (l : List Player)
    (h : (l.map (fun p => p.team)).Nodup) (c : Int) :
    (l.filter (fun p => p.team = c)).length ≤ 1 := by
  rw [← List.countP_eq_length_filter]
  have hmap : (l.map (fun p => p.team)).countP (fun x => decide (x = c)) =
      l.countP (fun p => decide (p.team = c)) := List.countP_map _ _ _
  rw [← hmap]
  exact countP_eq_le_one _ h c

def wRows : List Player :=
  [⟨1, 1, 1, 50, some 38, []⟩, ⟨2, 1, 2, 50, some 38, []⟩,
   ⟨3, 2, 3, 50, some 38, []⟩, ⟨4, 2, 4, 50, some 38, []⟩,
   ⟨5, 2, 5, 50, some 38, []⟩, ⟨6, 2, 6, 50, some 38, []⟩,
   ⟨7, 2, 7, 50, some 38, []⟩, ⟨8, 3, 8, 50, some 38, []⟩,
   ⟨9, 3, 9, 50, some 38, []⟩, ⟨10, 3, 10, 50, some 38, []⟩,
   ⟨11, 3, 11, 50, some 38, []⟩, ⟨12, 3, 12, 50, some 38, []⟩,
   ⟨13, 4, 13, 50, some 38, []⟩, ⟨14, 4, 14, 50, some 38, []⟩,
   ⟨15, 4, 15, 50, some 38, []⟩]

def wTbl : PlayersTable := ⟨["id", "element_type", "team", "now_cost"], wRows⟩

def wOracle : MipOutcome := ⟨.optimal, fun _ => true⟩

def wMipResult : SquadResult :=
  match selectSquad wTbl ⟨false, []⟩ 1 1 100 .mip none wOracle with
  | .ok r => r
  | .error _ => default

def wGaResult : SquadResult :=
  match selectSquad wTbl ⟨false, []⟩ 1 1 100 .ga none wOracle with
  | .ok r => r
  | .error _ => default

/-- Witness for C1: a 15-player pool (2/5/5/3 across the classes, 15
distinct clubs, cost 5.0 each) on which both solvers succeed within the
default budget. -/
theorem c1_select_squad_witness : squadOk wMipResult 100 ∧ squadOk wGaResult 100 := by
  have hcontract : wOracle.status = .optimal →
      mipConstraintsOk (incorporateFixtureDifficulty wTbl ⟨false, []⟩ 1 1
        ((none : Option (List String)).getD (defaultEpCols 1 1))).rows
        wOracle.sel (budgetUnits 100) := by
    intro _
    refine ⟨?_, ?_, ?_, ?_, ?_, ?_, ?_⟩
    · with_unfolding_all decide
    · with_unfolding_all decide
    · with_unfolding_all decide
    · with_unfolding_all decide
    · with_unfolding_all decide
    · with_unfolding_all decide
    · intro c
      refine le_trans (List.length_filter_le _ _) ?_
      refine le_trans (filter_team_le_one _ ?_ c) (by norm_num)
      with_unfolding_all decide
  exact ⟨(c1_select_squad wTbl ⟨false, []⟩ 1 1 100 none wOracle hcontract).1
      wMipResult (by with_unfolding_all rfl),
    (c1_select_squad wTbl ⟨false, []⟩ 1 1 100 none wOracle hcontract).2
      wGaResult (by with_unfolding_all rfl)⟩

theorem rankedByValue_pairwise (wpts : Player → ℚ) (l : List Player) :
    List.Pairwise (fun a b => playerValue wpts b < playerValue wpts a ∨
      (playerValue wpts a = playerValue wpts b ∧ wpts b ≤ wpts a))
      (rankedByValue wpts l) := by
  have htrans : ∀ a b c : Player,
      (decide (playerValue wpts b < playerValue wpts a ∨
        (playerValue wpts a = playerValue wpts b ∧ wpts b ≤ wpts a))) = true →
      (decide (playerValue wpts c < playerValue wpts b ∨
        (playerValue wpts b = playerValue wpts c ∧ wpts c ≤ wpts b))) = true →
      (decide (playerValue wpts c < playerValue wpts a ∨
        (playerValue wpts a = playerValue wpts c ∧ wpts c ≤ wpts a))) = true := by
    intro a b c hab hbc
    simp only [decide_eq_true_eq] at hab hbc ⊢
    rcases hab with h1 | ⟨h1, h1w⟩ <;> rcases hbc with h2 | ⟨h2, h2w⟩
    · exact Or.inl (lt_trans h2 h1)
    · exact Or.inl (h2 ▸ h1)
    · exact Or.inl (h2.trans_eq h1.symm)
    · exact Or.inr ⟨h1.trans h2, le_trans h2w h1w⟩
  have htot : ∀ a b : Player,
      ((decide (playerValue wpts b < playerValue wpts a ∨
        (playerValue wpts a = playerValue wpts b ∧ wpts b ≤ wpts a))) ||
       (decide (playerValue wpts a < playerValue wpts b ∨
        (playerValue wpts b = playerValue wpts a ∧ wpts a ≤ wpts b)))) = true := by
    intro a b
    simp only [Bool.or_eq_true, decide_eq_true_eq]
    rcases lt_trichotomy (playerValue wpts a) (playerValue wpts b) with h | h | h
    · exact Or.inr (Or.inl h)
    · rcases le_total (wpts a) (wpts b) with hw | hw
      · exact Or.inr (Or.inr ⟨h.symm, hw⟩)
      · exact Or.inl (Or.inr ⟨h, hw⟩)
    · exact Or.inl (Or.inl h)
  have h := @List.sorted_mergeSort Player
    (fun a b => decide (playerValue wpts b < playerValue wpts a ∨
      (playerValue wpts a = playerValue wpts b ∧ wpts b ≤ wpts a)))
    htrans htot l
  exact h.imp (fun hab => by simpa using hab)

theorem rankedByCost_pairwise (l : List Player) :
    List.Pairwise (fun a b => a.nowCost ≤ b.nowCost) (rankedByCost l) := by
  have h := @List.sorted_mergeSort Player
    (fun a b => decide (a.nowCost ≤ b.nowCost))
    (fun a b c hab hbc => by
      simp only [decide_eq_true_eq] at hab hbc ⊢
      exact le_trans hab hbc)
    (fun a b => by
      simp only [Bool.or_eq_true, decide_eq_true_eq]
      exact le_total _ _) l
  exact h.imp (fun hab => by simpa using hab)

theorem solveWithGa_error_infeasible (rows : List Player) (wpts : Player → ℚ)
    (budget : ℚ) (e : FplError)
    (h : solveWithGa rows wpts budget = .error e) : e.isInfeasible = true := by
  unfold solveWithGa at h
  split at h
  next e1 heq1 =>
    injection h with h
    subst h
    obtain ⟨got, rem2, he, _⟩ :=
      (fillPosition_spec rows wpts 1 "GK" 2 [] (budgetUnits budget)).2 e1 heq1
    rw [he]
    rfl
  next sel1 rem1 heq1 =>
  split at h
  next e2 heq2 =>
    injection h with h
    subst h
    obtain ⟨got, rem2, he, _⟩ :=
      (fillPosition_spec rows wpts 2 "DEF" 5 sel1 rem1).2 e2 heq2
    rw [he]
    rfl
  next sel2 rem2 heq2 =>
  split at h
  next e3 heq3 =>
    injection h with h
    subst h
    obtain ⟨got, rem3, he, _⟩ :=
      (fillPosition_spec rows wpts 3 "MID" 5 sel2 rem2).2 e3 heq3
    rw [he]
    rfl
  next sel3 rem3 heq3 =>
  split at h
  next e4 heq4 =>
    injection h with h
    subst h
    obtain ⟨got, rem4, he, _⟩ :=
      (fillPosition_spec rows wpts 4 "FWD" 3 sel3 rem3).2 e4 heq4
    rw [he]
    rfl
  next sel4 rem4 heq4 =>
  split at h
  · injection h with h
    subst h
    rfl
  · cases h

theorem solveWithGa_ok_length (rows : List Player) (wpts : Player → ℚ)
    (budget : ℚ) (r : SquadResult)
    (h : solveWithGa rows wpts budget = .ok r) : r.squadRows.length = 15 := by
  unfold solveWithGa at h
  split at h
  · cases h
  next sel1 rem1 heq1 =>
  split at h
  · cases h
  next sel2 rem2 heq2 =>
  split at h
  · cases h
  next sel3 rem3 heq3 =>
  split at h
  · cases h
  next sel4 rem4 heq4 =>
  split at h
  · cases h
  next h15 =>
  injection h with h
  subst h
  rw [not_not] at h15
  exact h15

/-- C7: the heuristic solver handles each position class independently.
Its first pass ranks the class's candidates by points-per-cost ratio
descending with ties broken by higher windowed points; the second pass is
taken exactly when the first leaves the quota unfilled and ranks the same
candidates by cost ascending; a greedy take happens only within the club
cap and remaining budget, so a successful fill adds exactly the quota, all
of the class, decrements the budget by the added cost (staying
non-negative) and keeps every club at ≤ 3; a failed fill raises the
infeasibility error naming the quota and remaining budget; every heuristic
failure is an infeasibility error and a success selects exactly 15. -/
theorem c7_heuristic_solver (players : List Player) (wpts : Player → ℚ)
    (etype : Int) (lab : String) (limit : Nat) (sel : List Player) (rem : Int)
    (budget : ℚ) :
    List.Pairwise (fun a b => playerValue wpts b < playerValue wpts a ∨
      (playerValue wpts a = playerValue wpts b ∧ wpts b ≤ wpts a))
      (rankedByValue wpts (posCandidates players etype)) ∧
    List.Pairwise (fun a b => a.nowCost ≤ b.nowCost)
      (rankedByCost (rankedByValue wpts (posCandidates players etype))) ∧
    (¬ (gaScan limit false (rankedByValue wpts (posCandidates players etype))
        sel rem 0).2.2 < limit →
      gaTwoPass limit (rankedByValue wpts (posCandidates players etype)) sel rem =
        gaScan limit false (rankedByValue wpts (posCandidates players etype))
          sel rem 0) ∧
    ((gaScan limit false (rankedByValue wpts (posCandidates players etype))
        sel rem 0).2.2 < limit →
      gaTwoPass limit (rankedByValue wpts (posCandidates players etype)) sel rem =
        gaScan limit true
          (rankedByCost (rankedByValue wpts (posCandidates players etype)))
          (gaScan limit false (rankedByValue wpts (posCandidates players etype))
            sel rem 0).1
          (gaScan limit false (rankedByValue wpts (posCandidates players etype))
            sel rem 0).2.1
          (gaScan limit false (rankedByValue wpts (posCandidates players etype))
            sel rem 0).2.2) ∧
    (∀ e, fillPosition players wpts etype lab limit sel rem = .error e →
      ∃ got rem2, e = .infeasibleFill lab limit got rem2 ∧ got < limit) ∧
    (∀ res, fillPosition players wpts etype lab limit sel rem = .ok res →
      ∃ added : List Player, res.1 = sel ++ added ∧ added.length = limit ∧
        (∀ p ∈ added, p.elementType = etype) ∧
        res.2 = rem - (added.map (fun p => p.nowCost)).sum ∧
        (0 ≤ rem → 0 ≤ res.2) ∧
        ((∀ t, clubCount sel t ≤ 3) → ∀ t, clubCount res.1 t ≤ 3)) ∧
    (∀ e, solveWithGa players wpts budget = .error e → e.isInfeasible = true) ∧
    (∀ r, solveWithGa players wpts budget = .ok r → r.squadRows.length = 15) := by
  refine ⟨rankedByValue_pairwise wpts (posCandidates players etype),
    rankedByCost_pairwise _, ?_, ?_, ?_, ?_, ?_, ?_⟩
  · intro hge
    unfold gaTwoPass
    rw [if_neg hge]
  · intro hlt
    unfold gaTwoPass
    rw [if_pos hlt]
  · exact (fillPosition_spec players wpts etype lab limit sel rem).2
  · intro res hres
    obtain ⟨added, h1, h2, h3, h4, h5, h6⟩ :=
      (fillPosition_spec players wpts etype lab limit sel rem).1 res hres
    exact ⟨added, h1, h3, fun p hp => (h2 p hp).1, h4, h5, h6⟩
  · exact solveWithGa_error_infeasible players wpts budget
  · exact solveWithGa_ok_length players wpts budget

def wGaResult2 : SquadResult :=
  match solveWithGa wRows (fun _ => 1) 100 with
  | .ok r => r
  | .error _ => default

/-- Witness for C7: on the 15-player pool, asking for 3 goalkeepers when
only 2 exist fails with the quota-naming infeasibility error (2 taken,
budget 900 tenths left); the normal 2-GK fill succeeds with exactly the
quota; with budget 0 the heuristic fails with an infeasibility error; with
budget 100 it selects exactly 15. -/
theorem c7_heuristic_solver_witness :
    (∃ got rem2, (FplError.infeasibleFill "GK" 3 2 900) =
      .infeasibleFill "GK" 3 got rem2 ∧ got < 3) ∧
    (∃ added : List Player,
      ((wRows.take 2 : List Player), (900 : Int)).1 = [] ++ added ∧
      added.length = 2 ∧ (∀ p ∈ added, p.elementType = 1) ∧
      ((wRows.take 2 : List Player), (900 : Int)).2 =
        1000 - (added.map (fun p => p.nowCost)).sum ∧
      ((0 : Int) ≤ 1000 → (0 : Int) ≤ ((wRows.take 2 : List Player), (900 : Int)).2) ∧
      ((∀ t, clubCount [] t ≤ 3) →
        ∀ t, clubCount ((wRows.take 2 : List Player), (900 : Int)).1 t ≤ 3)) ∧
    (FplError.infeasibleFill "GK" 2 0 0).isInfeasible = true ∧
    wGaResult2.squadRows.length = 15 := by
  refine ⟨?_, ?_, ?_, ?_⟩
  · exact (c7_heuristic_solver wRows (fun _ => 1) 1 "GK" 3 [] 1000 100).2.2.2.2.1
      (.infeasibleFill "GK" 3 2 900) (by with_unfolding_all rfl)
  · exact (c7_heuristic_solver wRows (fun _ => 1) 1 "GK" 2 [] 1000 100).2.2.2.2.2.1
      ((wRows.take 2 : List Player), (900 : Int)) (by with_unfolding_all rfl)
  · exact (c7_heuristic_solver wRows (fun _ => 1) 1 "GK" 2 [] 1000 0).2.2.2.2.2.2.1
      (.infeasibleFill "GK" 2 0 0) (by with_unfolding_all rfl)
  · exact (c7_heuristic_solver wRows (fun _ => 1) 1 "GK" 2 [] 1000 100).2.2.2.2.2.2.2
      wGaResult2 (by with_unfolding_all rfl)

/-! ## Lemmas: the lineup selector -/

theorem mem_sortByPtsDesc (pts : Player → ℚ) (l : List Player) (p : Player) :
    p ∈ sortByPtsDesc pts l ↔ p ∈ l :=
  List.mem_mergeSort

theorem length_sortByPtsDesc (pts : Player → ℚ) (l : List Player) :
    (sortByPtsDesc pts l).length = l.length :=
  List.length_mergeSort l

theorem mem_xi_block (squad : List Player) (pts : Player → ℚ) (f : Player → Bool)
    (n : Nat) (p : Player)
    (h : p ∈ (sortByPtsDesc pts (squad.filter f)).take n) :
    p ∈ squad ∧ f p = true := by
  have := (mem_sortByPtsDesc pts _ p).mp (List.mem_of_mem_take h)
  exact ⟨(List.mem_filter.mp this).1, (List.mem_filter.mp this).2⟩

theorem formationXI_mem (squad : List Player) (pts : Player → ℚ) (dc mc fc : Nat)
    (p : Player) (h : p ∈ formationXI squad pts dc mc fc) : p ∈ squad := by
  unfold formationXI at h
  rcases List.mem_append.mp h with h | h
  rcases List.mem_append.mp h with h | h
  rcases List.mem_append.mp h with h | h
  · exact (mem_xi_block squad pts _ _ p h).1
  · exact (mem_xi_block squad pts _ _ p h).1
  · exact (mem_xi_block squad pts _ _ p h).1
  · exact (mem_xi_block squad pts _ _ p h).1

theorem formationXI_length (squad : List Player) (pts : Player → ℚ)
    (dc mc fc : Nat) (h : ¬ formationInfeasible squad dc mc fc) :
    (formationXI squad pts dc mc fc).length = 1 + dc + mc + fc := by
  unfold formationInfeasible at h
  push_neg at h
  obtain ⟨h1, h2, h3, h4⟩ := h
  unfold formationXI
  rw [List.length_append, List.length_append, List.length_append,
    List.length_take, List.length_take, List.length_take, List.length_take,
    length_sortByPtsDesc, length_sortByPtsDesc, length_sortByPtsDesc,
    length_sortByPtsDesc]
  omega

theorem exists_cons_cons_of_two_le {α : Type} (l : List α) (h : 2 ≤ l.length) :
    ∃ c v rest, l = c :: v :: rest := by
  match l, h with
  | c :: v :: rest, _ => exact ⟨c, v, rest, rfl⟩
  | [], h => simp at h
  | [c], h => simp at h

theorem optimizeFormation_feasible (squad : List Player) (pts : Player → ℚ)
    (dc mc fc : Nat) (capM viceM : ℚ)
    (h : ¬ formationInfeasible squad dc mc fc) (h2 : 2 ≤ 1 + dc + mc + fc) :
    ∃ c v rest, sortByPtsDesc pts (formationXI squad pts dc mc fc) = c :: v :: rest ∧
      optimizeFormation squad pts dc mc fc capM viceM =
        some (formationXI squad pts dc mc fc, formationBench squad pts dc mc fc,
          lineupTotal (formationXI squad pts dc mc fc) pts c.id v.id capM viceM,
          c.id, v.id) := by
  have hlen : (sortByPtsDesc pts (formationXI squad pts dc mc fc)).length =
      1 + dc + mc + fc := by
    rw [length_sortByPtsDesc]
    exact formationXI_length squad pts dc mc fc h
  obtain ⟨c, v, rest, hs⟩ :=
    exists_cons_cons_of_two_le _ (by rw [hlen]; exact h2)
  refine ⟨c, v, rest, hs, ?_⟩
  unfold optimizeFormation
  rw [if_neg h, hs]

theorem optimizeFormation_infeasible (squad : List Player) (pts : Player → ℚ)
    (dc mc fc : Nat) (capM viceM : ℚ) (h : formationInfeasible squad dc mc fc) :
    optimizeFormation squad pts dc mc fc capM viceM = none := by
  unfold optimizeFormation
  rw [if_pos h]

theorem optimizeFormation_none_iff (squad : List Player) (pts : Player → ℚ)
    (dc mc fc : Nat) (capM viceM : ℚ) (h2 : 2 ≤ 1 + dc + mc + fc) :
    optimizeFormation squad pts dc mc fc capM viceM = none ↔
      formationInfeasible squad dc mc fc := by
  constructor
  · intro hn
    by_contra hf
    obtain ⟨c, v, rest, _, hsome⟩ :=
      optimizeFormation_feasible squad pts dc mc fc capM viceM hf h2
    rw [hsome] at hn
    cases hn
  · exact optimizeFormation_infeasible squad pts dc mc fc capM viceM

theorem formationXI_gk_count (squad : List Player) (pts : Player → ℚ)
    (dc mc fc : Nat) (h : ¬ formationInfeasible squad dc mc fc) :
    ((formationXI squad pts dc mc fc).filter
      (fun p => p.position = "GK")).length = 1 := by
  unfold formationInfeasible at h
  push_neg at h
  unfold formationXI
  rw [List.filter_append, List.filter_append, List.filter_append,
    List.length_append, List.length_append, List.length_append]
  rw [filter_len_of_all _ _ (fun p hp => (mem_xi_block squad pts _ _ p hp).2),
    filter_len_of_none _ _ (fun p hp => by
      have := (mem_xi_block squad pts _ _ p hp).2
      simp only [decide_eq_true_eq] at this ⊢
      rw [this]
      decide),
    filter_len_of_none _ _ (fun p hp => by
      have := (mem_xi_block squad pts _ _ p hp).2
      simp only [decide_eq_true_eq] at this ⊢
      rw [this]
      decide),
    filter_len_of_none _ _ (fun p hp => by
      have := (mem_xi_block squad pts _ _ p hp).2
      simp only [decide_eq_true_eq] at this ⊢
      rw [this]
      decide)]
  rw [List.length_take, length_sortByPtsDesc]
  omega

theorem block_ids_nodup (squad : List Player) (pts : Player → ℚ)
    (f : Player → Bool) (n : Nat)
    (hnd : (squad.map (fun p => p.id)).Nodup) :
    (((sortByPtsDesc pts (squad.filter f)).take n).map (fun p => p.id)).Nodup := by
  have h1 : ((squad.filter f).map (fun p => p.id)).Nodup :=
    ((List.filter_sublist squad).map _).nodup hnd
  have h2 : ((sortByPtsDesc pts (squad.filter f)).map (fun p => p.id)).Nodup :=
    ((List.mergeSort_perm (squad.filter f) _).map _).nodup_iff.mpr h1
  exact ((List.take_sublist n _).map _).nodup h2

theorem ids_nodup_append (b1 b2 : List Player)
    (h1 : (b1.map (fun p => p.id)).Nodup) (h2 : (b2.map (fun p => p.id)).Nodup)
    (hdisj : ∀ p ∈ b1, ∀ q ∈ b2, ¬ p.id = q.id) :
    ((b1 ++ b2).map (fun p => p.id)).Nodup := by
  rw [List.map_append]
  refine h1.append h2 ?_
  rw [List.disjoint_left]
  intro a ha1 ha2
  obtain ⟨p, hp, hpa⟩ := List.mem_map.mp ha1
  obtain ⟨q, hq, hqa⟩ := List.mem_map.mp ha2
  exact hdisj p hp q hq (by rw [hpa, hqa])

theorem blocks_disjoint (squad : List Player) (pts : Player → ℚ)
    (s1 s2 : String) (n m : Nat)
    (hnd : (squad.map (fun p => p.id)).Nodup) (hne : ¬ s1 = s2) :
    ∀ p ∈ (sortByPtsDesc pts (squad.filter (fun p => p.position = s1))).take n,
    ∀ q ∈ (sortByPtsDesc pts (squad.filter (fun p => p.position = s2))).take m,
    ¬ p.id = q.id := by
  intro p hp q hq heq
  have hpf := mem_xi_block squad pts _ n p hp
  have hqg := mem_xi_block squad pts _ m q hq
  have hpq : p = q := List.inj_on_of_nodup_map hnd hpf.1 hqg.1 heq
  rw [decide_eq_true_eq] at *
  exact hne ((hpf.2).symm.trans (hpq ▸ hqg.2))

theorem formationXI_ids_nodup (squad : List Player) (pts : Player → ℚ)
    (dc mc fc : Nat) (hnd : (squad.map (fun p => p.id)).Nodup) :
    ((formationXI squad pts dc mc fc).map (fun p => p.id)).Nodup := by
  unfold formationXI
  refine ids_nodup_append _ _ ?_ (block_ids_nodup squad pts _ fc hnd) ?_
  · refine ids_nodup_append _ _ ?_ (block_ids_nodup squad pts _ mc hnd) ?_
    · exact ids_nodup_append _ _ (block_ids_nodup squad pts _ 1 hnd)
        (block_ids_nodup squad pts _ dc hnd)
        (blocks_disjoint squad pts "GK" "DEF" 1 dc hnd (by decide))
    · intro p hp q hq
      rcases List.mem_append.mp hp with hp | hp
      · exact blocks_disjoint squad pts "GK" "MID" 1 mc hnd (by decide) p hp q hq
      · exact blocks_disjoint squad pts "DEF" "MID" dc mc hnd (by decide) p hp q hq
  · intro p hp q hq
    rcases List.mem_append.mp hp with hp | hp
    · rcases List.mem_append.mp hp with hp | hp
      · exact blocks_disjoint squad pts "GK" "FWD" 1 fc hnd (by decide) p hp q hq
      · exact blocks_disjoint squad pts "DEF" "FWD" dc fc hnd (by decide) p hp q hq
    · exact blocks_disjoint squad pts "MID" "FWD" mc fc hnd (by decide) p hp q hq

theorem mem_bench_iff (squad : List Player) (pts : Player → ℚ) (dc mc fc : Nat)
    (p : Player) :
    p ∈ formationBench squad pts dc mc fc ↔
      p ∈ squad ∧ ¬ p.id ∈ (formationXI squad pts dc mc fc).map (fun q => q.id) := by
  unfold formationBench
  rw [mem_sortByPtsDesc, List.mem_filter]
  simp only [decide_eq_true_eq]

theorem squad_cover (squad : List Player) (pts : Player → ℚ) (dc mc fc : Nat)
    (hnd : (squad.map (fun p => p.id)).Nodup) (p : Player) (hp : p ∈ squad) :
    p ∈ formationXI squad pts dc mc fc ∨ p ∈ formationBench squad pts dc mc fc := by
  by_cases hid : p.id ∈ (formationXI squad pts dc mc fc).map (fun q => q.id)
  · left
    obtain ⟨q, hq, hqid⟩ := List.mem_map.mp hid
    have : q = p :=
      List.inj_on_of_nodup_map hnd (formationXI_mem squad pts dc mc fc q hq) hp hqid
    rwa [← this]
  · right
    exact (mem_bench_iff squad pts dc mc fc p).mpr ⟨hp, hid⟩

theorem xi_bench_disjoint (squad : List Player) (pts : Player → ℚ)
    (dc mc fc : Nat) (p : Player) :
    ¬ (p ∈ formationXI squad pts dc mc fc ∧ p ∈ formationBench squad pts dc mc fc) := by
  rintro ⟨h1, h2⟩
  exact ((mem_bench_iff squad pts dc mc fc p).mp h2).2 (List.mem_map.mpr ⟨p, h1, rfl⟩)

theorem filter_split_len (l : List Player) (q : Player → Prop) [DecidablePred q] :
    (l.filter (fun a => decide (q a))).length +
      (l.filter (fun a => decide (¬ q a))).length = l.length := by
  induction l with
  | nil => rfl
  | cons a rest ih =>
    by_cases h : q a
    · rw [List.filter_cons_of_pos (by simpa using h),
        List.filter_cons_of_neg (by simpa using h)]
      simp only [List.length_cons]
      omega
    · rw [List.filter_cons_of_neg (by simpa using h),
        List.filter_cons_of_pos (by simpa using h)]
      simp only [List.length_cons]
      omega

theorem filter_mem_ids_length (squad : List Player) (xi : List Player)
    (hnd : (squad.map (fun p => p.id)).Nodup)
    (hxnd : (xi.map (fun p => p.id)).Nodup)
    (hsub : ∀ p ∈ xi, p ∈ squad) :
    (squad.filter (fun p => decide (p.id ∈ xi.map (fun q => q.id)))).length =
      xi.length := by
  have h1 : (squad.filter (fun p => decide (p.id ∈ xi.map (fun q => q.id)))).length =
      ((squad.map (fun p => p.id)).filter
        (fun a => decide (a ∈ xi.map (fun q => q.id)))).length := by
    rw [← List.countP_eq_length_filter, ← List.countP_eq_length_filter,
      List.countP_map]
    rfl
  rw [h1]
  have hperm : ((squad.map (fun p => p.id)).filter
      (fun a => decide (a ∈ xi.map (fun q => q.id)))).Perm
        (xi.map (fun q => q.id)) := by
    rw [List.perm_ext_iff_of_nodup (((List.filter_sublist _)).nodup hnd) hxnd]
    intro a
    rw [List.mem_filter]
    simp only [decide_eq_true_eq]
    constructor
    · exact fun h => h.2
    · intro ha
      refine ⟨?_, ha⟩
      obtain ⟨q, hq, hqa⟩ := List.mem_map.mp ha
      exact List.mem_map.mpr ⟨q, hsub q hq, hqa⟩
  rw [hperm.length_eq, List.length_map]

theorem bench_length (squad : List Player) (pts : Player → ℚ) (dc mc fc : Nat)
    (hnd : (squad.map (fun p => p.id)).Nodup)
    (h : ¬ formationInfeasible squad dc mc fc) :
    (formationBench squad pts dc mc fc).length =
      squad.length - (1 + dc + mc + fc) := by
  unfold formationBench
  rw [length_sortByPtsDesc]
  have hsplit := filter_split_len squad
    (fun p => p.id ∈ (formationXI squad pts dc mc fc).map (fun q => q.id))
  have hin := filter_mem_ids_length squad (formationXI squad pts dc mc fc) hnd
    (formationXI_ids_nodup squad pts dc mc fc hnd)
    (formationXI_mem squad pts dc mc fc)
  rw [formationXI_length squad pts dc mc fc h] at hin
  omega

/-- The formation's total score, when feasible. -/
def totalOfFormation (squad : List Player) (pts : Player → ℚ) (capM viceM : ℚ)
    (fm : Nat × Nat × Nat) : Option ℚ :=
  (optimizeFormation squad pts fm.1 fm.2.1 fm.2.2 capM viceM).map
    (fun x => x.2.2.1)

/-- The running best score of the formation loop (`best_points`), with the
initial sentinel −1. -/
def statePoints : Option BestChoice → ℚ
  | none => -1
  | some b => b.points

theorem formationStep_none_iff (squad : List Player) (pts : Player → ℚ)
    (capM viceM : ℚ) (s : Option BestChoice) (fm : Nat × Nat × Nat) :
    formationStep squad pts capM viceM s fm = none ↔
      s = none ∧ ∀ q, totalOfFormation squad pts capM viceM fm = some q → q ≤ -1 := by
  unfold formationStep totalOfFormation
  rcases hopt : optimizeFormation squad pts fm.1 fm.2.1 fm.2.2 capM viceM with
    _ | ⟨xi, bench, total, cap, vice⟩
  · simp
  · simp only [Option.map_some]
    cases s with
    | none =>
      simp only [statePoints]
      split_ifs with hlt
      · constructor
        · intro hc
          cases hc
        · rintro ⟨_, hq⟩
          have := hq total rfl
          show False
          simp only [statePoints] at hlt
          linarith [hlt]
      · constructor
        · intro _
          refine ⟨by trivial, fun q hq => ?_⟩
          injection hq with hq
          subst hq
          linarith [not_lt.mp hlt]
        · intro _
          rfl
    | some b =>
      split_ifs with hlt
      · constructor
        · intro hc
          cases hc
        · rintro ⟨hc, _⟩
          cases hc
      · constructor
        · intro hc
          cases hc
        · rintro ⟨hc, _⟩
          cases hc

theorem formationStep_cases (squad : List Player) (pts : Player → ℚ)
    (capM viceM : ℚ) (s : Option BestChoice) (fm : Nat × Nat × Nat) :
    (formationStep squad pts capM viceM s fm = s ∧
      ∀ q, totalOfFormation squad pts capM viceM fm = some q →
        q ≤ statePoints s) ∨
    (∃ xi bench total cap vice,
      optimizeFormation squad pts fm.1 fm.2.1 fm.2.2 capM viceM =
        some (xi, bench, total, cap, vice) ∧
      statePoints s < total ∧
      formationStep squad pts capM viceM s fm =
        some ⟨xi, bench, total, cap, vice, fm⟩) := by
  unfold formationStep totalOfFormation
  rcases hopt : optimizeFormation squad pts fm.1 fm.2.1 fm.2.2 capM viceM with
    _ | ⟨xi, bench, total, cap, vice⟩
  · left
    refine ⟨rfl, fun q hq => ?_⟩
    simp at hq
  · have hsp : (match s with | none => (-1 : ℚ) | some b => b.points) =
        statePoints s := by
      cases s <;> rfl
    rw [hsp]
    dsimp only
    split_ifs with hlt
    · right
      exact ⟨xi, bench, total, cap, vice, rfl, hlt, rfl⟩
    · left
      refine ⟨rfl, fun q hq => ?_⟩
      simp only [Option.map_some] at hq
      injection hq with hq
      subst hq
      exact not_lt.mp hlt

theorem statePoints_step_le (squad : List Player) (pts : Player → ℚ)
    (capM viceM : ℚ) (s : Option BestChoice) (fm : Nat × Nat × Nat) :
    statePoints s ≤ statePoints (formationStep squad pts capM viceM s fm) := by
  rcases formationStep_cases squad pts capM viceM s fm with ⟨heq, _⟩ |
    ⟨xi, bench, total, cap, vice, _, hlt, hstep⟩
  · rw [heq]
  · rw [hstep]
    exact le_of_lt hlt

theorem formationStep_bound (squad : List Player) (pts : Player → ℚ)
    (capM viceM : ℚ) (s : Option BestChoice) (fm : Nat × Nat × Nat) (q : ℚ)
    (hq : totalOfFormation squad pts capM viceM fm = some q) :
    q ≤ statePoints (formationStep squad pts capM viceM s fm) := by
  rcases formationStep_cases squad pts capM viceM s fm with ⟨heq, hb⟩ |
    ⟨xi, bench, total, cap, vice, hopt, hlt, hstep⟩
  · rw [heq]
    exact hb q hq
  · rw [hstep]
    unfold totalOfFormation at hq
    rw [hopt] at hq
    dsimp only [Option.map] at hq
    injection hq with hq
    subst hq
    rfl

theorem foldl_formationStep_none_iff (squad : List Player) (pts : Player → ℚ)
    (capM viceM : ℚ) (l : List (Nat × Nat × Nat)) (s : Option BestChoice) :
    l.foldl (formationStep squad pts capM viceM) s = none ↔
      s = none ∧ ∀ fm ∈ l, ∀ q,
        totalOfFormation squad pts capM viceM fm = some q → q ≤ -1 := by
  induction l generalizing s with
  | nil => simp
  | cons fm rest ih =>
    rw [List.foldl_cons, ih]
    rw [formationStep_none_iff]
    constructor
    · rintro ⟨⟨hs, hfm⟩, hrest⟩
      refine ⟨hs, fun fm' hfm' q hq => ?_⟩
      rcases List.mem_cons.mp hfm' with h | h
      · exact hfm q (h ▸ hq)
      · exact hrest fm' h q hq
    · rintro ⟨hs, hall⟩
      exact ⟨⟨hs, fun q hq => hall fm (List.mem_cons_self fm rest) q hq⟩,
        fun fm' h q hq => hall fm' (List.mem_cons_of_mem fm h) q hq⟩

theorem foldl_formationStep_some (squad : List Player) (pts : Player → ℚ)
    (capM viceM : ℚ) (l : List (Nat × Nat × Nat)) (s : Option BestChoice)
    (b : BestChoice) (h : l.foldl (formationStep squad pts capM viceM) s = some b) :
    (s = some b ∧ ∀ fm ∈ l, ∀ q,
      totalOfFormation squad pts capM viceM fm = some q → q ≤ b.points) ∨
    (∃ i, ∃ hi : i < l.length,
      optimizeFormation squad pts (l.get ⟨i, hi⟩).1 (l.get ⟨i, hi⟩).2.1
          (l.get ⟨i, hi⟩).2.2 capM viceM =
        some (b.xi, b.bench, b.points, b.captain, b.vice) ∧
      b.fm = l.get ⟨i, hi⟩ ∧
      statePoints s < b.points ∧
      (∀ fm ∈ l, ∀ q,
        totalOfFormation squad pts capM viceM fm = some q → q ≤ b.points) ∧
      (∀ j, ∀ hj : j < l.length, j < i → ∀ q,
        totalOfFormation squad pts capM viceM (l.get ⟨j, hj⟩) = some q →
          q < b.points)) := by
  induction l generalizing s with
  | nil =>
    left
    exact ⟨h, by simp⟩
  | cons fm rest ih =>
    rw [List.foldl_cons] at h
    rcases ih (formationStep squad pts capM viceM s fm) h with
      ⟨hs, hrest⟩ | ⟨i, hi, hopt, hfm, hlt, hall, hbefore⟩
    · rcases formationStep_cases squad pts capM viceM s fm with ⟨heq, hbound⟩ |
        ⟨xi, bench, total, cap, vice, hoptf, hltf, hstep⟩
      · left
        rw [heq] at hs
        refine ⟨hs, fun fm' hfm' q hq => ?_⟩
        rcases List.mem_cons.mp hfm' with hh | hh
        · have := hbound q (hh ▸ hq)
          rw [hs] at this
          exact this
        · exact hrest fm' hh q hq
      · right
        rw [hstep] at hs
        injection hs with hs
        refine ⟨0, by simp, ?_, ?_, ?_, ?_, ?_⟩
        · show optimizeFormation squad pts fm.1 fm.2.1 fm.2.2 capM viceM = _
          rw [hoptf, ← hs]
        · show b.fm = fm
          rw [← hs]
        · rw [← hs]
          exact hltf
        · intro fm' hfm' q hq
          rcases List.mem_cons.mp hfm' with hh | hh
          · unfold totalOfFormation at hq
            rw [hh, hoptf] at hq
            dsimp only [Option.map] at hq
            injection hq with hq
            rw [← hs, ← hq]
          · exact hrest fm' hh q hq
        · intro j hj hji q hq
          omega
    · right
      refine ⟨i + 1, by simpa using hi, ?_, ?_, ?_, ?_, ?_⟩
      · exact hopt
      · exact hfm
      · exact lt_of_le_of_lt (statePoints_step_le squad pts capM viceM s fm) hlt
      · intro fm' hfm' q hq
        rcases List.mem_cons.mp hfm' with hh | hh
        · have hb := formationStep_bound squad pts capM viceM s fm q (hh ▸ hq)
          exact le_of_lt (lt_of_le_of_lt hb hlt)
        · exact hall fm' hh q hq
      · intro j hj hji q hq
        cases j with
        | zero =>
          have hb := formationStep_bound squad pts capM viceM s fm q hq
          exact lt_of_le_of_lt hb hlt
        | succ j' =>
          exact hbefore j' (by simpa using hj) (by omega) q hq

theorem optimizeFormation_inv (squad : List Player) (pts : Player → ℚ)
    (dc mc fc : Nat) (capM viceM : ℚ) (xi bench : List Player) (total : ℚ)
    (cap vice : Int)
    (h : optimizeFormation squad pts dc mc fc capM viceM =
      some (xi, bench, total, cap, vice)) :
    ¬ formationInfeasible squad dc mc fc ∧
    xi = formationXI squad pts dc mc fc ∧
    bench = formationBench squad pts dc mc fc ∧
    ∃ c v rest,
      sortByPtsDesc pts (formationXI squad pts dc mc fc) = c :: v :: rest ∧
      cap = c.id ∧ vice = v.id ∧
      total = lineupTotal (formationXI squad pts dc mc fc) pts c.id v.id capM viceM := by
  have hinf : ¬ formationInfeasible squad dc mc fc := by
    intro hf
    rw [optimizeFormation_infeasible squad pts dc mc fc capM viceM hf] at h
    cases h
  refine ⟨hinf, ?_⟩
  unfold optimizeFormation at h
  rw [if_neg hinf] at h
  rcases hsort : sortByPtsDesc pts (formationXI squad pts dc mc fc) with
    _ | ⟨c, tl⟩
  · rw [hsort] at h
    cases h
  rcases tl with _ | ⟨v, rest⟩
  · rw [hsort] at h
    cases h
  · rw [hsort] at h
    injection h with h
    injection h with h1 h
    injection h with h2 h
    injection h with h3 h
    injection h with h4 h5
    exact ⟨h1.symm, h2.symm, c, v, rest, rfl, h4.symm, h5.symm, h3.symm⟩

/-- C9: on every 15-player squad with unique ids on which the lineup
selection succeeds, starters and bench partition the squad (union the full
squad, no overlap, 11 + 4), exactly one goalkeeper starts, the captain and
vice-captain are distinct starters, and the formation returned is one of
the 8 allowed. -/
theorem c9_lineup_invariants (squad : List Player) (pts : Player → ℚ)
    (capM viceM : ℚ) (hnd : (squad.map (fun p => p.id)).Nodup)
    (h15 : squad.length = 15) (res : StartingElevenResult)
    (hok : selectStartingEleven squad pts capM viceM = .ok res) :
    (∀ p ∈ squad, p ∈ res.startingEleven ∨ p ∈ res.bench) ∧
    (∀ p ∈ res.startingEleven, p ∈ squad) ∧
    (∀ p ∈ res.bench, p ∈ squad) ∧
    (∀ p, ¬ (p ∈ res.startingEleven ∧ p ∈ res.bench)) ∧
    res.startingEleven.length = 11 ∧
    res.bench.length = 4 ∧
    (res.startingEleven.filter (fun p => p.position = "GK")).length = 1 ∧
    ¬ res.captainId = res.viceCaptainId ∧
    res.captainId ∈ res.startingEleven.map (fun p => p.id) ∧
    res.viceCaptainId ∈ res.startingEleven.map (fun p => p.id) ∧
    res.formation ∈ allowedFormations.map formationString := by
  have h11 : ∀ fm ∈ allowedFormations, 1 + fm.1 + fm.2.1 + fm.2.2 = 11 := by decide
  unfold selectStartingEleven at hok
  split at hok
  · cases hok
  next b hfold =>
  injection hok with hok
  subst hok
  rcases foldl_formationStep_some squad pts capM viceM allowedFormations none b
      hfold with ⟨hc, _⟩ | ⟨i, hi, hopt, hfm, _, _, _⟩
  · cases hc
  obtain ⟨hinf, hxi, hbench, c, v, rest, hsort, hcap, hvice, htotal⟩ :=
    optimizeFormation_inv squad pts _ _ _ capM viceM b.xi b.bench b.points
      b.captain b.vice hopt
  have hfm11 : 1 + (allowedFormations.get ⟨i, hi⟩).1 +
      (allowedFormations.get ⟨i, hi⟩).2.1 + (allowedFormations.get ⟨i, hi⟩).2.2 = 11 :=
    h11 _ (allowedFormations.get_mem i hi)
  have hsortnd : ((sortByPtsDesc pts (formationXI squad pts
      (allowedFormations.get ⟨i, hi⟩).1 (allowedFormations.get ⟨i, hi⟩).2.1
      (allowedFormations.get ⟨i, hi⟩).2.2)).map (fun p => p.id)).Nodup :=
    ((List.mergeSort_perm _ _).map _).nodup_iff.mpr
      (formationXI_ids_nodup squad pts _ _ _ hnd)
  have hcv : ¬ c.id = v.id := by
    rw [hsort, List.map_cons, List.map_cons] at hsortnd
    intro hcveq
    exact (List.nodup_cons.mp hsortnd).1 (hcveq ▸ List.mem_cons_self _ _)
  have hcxi : c ∈ formationXI squad pts (allowedFormations.get ⟨i, hi⟩).1
      (allowedFormations.get ⟨i, hi⟩).2.1 (allowedFormations.get ⟨i, hi⟩).2.2 := by
    rw [← mem_sortByPtsDesc pts, hsort]
    exact List.mem_cons_self _ _
  have hvxi : v ∈ formationXI squad pts (allowedFormations.get ⟨i, hi⟩).1
      (allowedFormations.get ⟨i, hi⟩).2.1 (allowedFormations.get ⟨i, hi⟩).2.2 := by
    rw [← mem_sortByPtsDesc pts, hsort]
    exact List.mem_cons_of_mem _ (List.mem_cons_self _ _)
  refine ⟨?_, ?_, ?_, ?_, ?_, ?_, ?_, ?_, ?_, ?_, ?_⟩
  · intro p hp
    show p ∈ b.xi ∨ p ∈ b.bench
    rw [hxi, hbench]
    exact squad_cover squad pts _ _ _ hnd p hp
  · intro p hp
    have hp' : p ∈ b.xi := hp
    rw [hxi] at hp'
    exact formationXI_mem squad pts _ _ _ p hp'
  · intro p hp
    have hp' : p ∈ b.bench := hp
    rw [hbench] at hp'
    exact ((mem_bench_iff squad pts _ _ _ p).mp hp').1
  · intro p hp
    have hp' : p ∈ b.xi ∧ p ∈ b.bench := hp
    rw [hxi, hbench] at hp'
    exact xi_bench_disjoint squad pts _ _ _ p hp'
  · show b.xi.length = 11
    rw [hxi, formationXI_length squad pts _ _ _ hinf]
    exact hfm11
  · show b.bench.length = 4
    rw [hbench, bench_length squad pts _ _ _ hnd hinf, h15, hfm11]
  · show (b.xi.filter (fun p => p.position = "GK")).length = 1
    rw [hxi]
    exact formationXI_gk_count squad pts _ _ _ hinf
  · show ¬ b.captain = b.vice
    rw [hcap, hvice]
    exact hcv
  · show b.captain ∈ b.xi.map (fun p => p.id)
    rw [hcap, hxi]
    exact List.mem_map.mpr ⟨c, hcxi, rfl⟩
  · show b.vice ∈ b.xi.map (fun p => p.id)
    rw [hvice, hxi]
    exact List.mem_map.mpr ⟨v, hvxi, rfl⟩
  · show formationString b.fm ∈ allowedFormations.map formationString
    rw [hfm]
    exact List.mem_map.mpr ⟨_, allowedFormations.get_mem i hi, rfl⟩

/-- C8 (amended): `select_lineup` evaluates the 8 formations in source
order, skipping exactly those for which a position class is short; each
feasible formation's score is the captain/vice-weighted sum over its 11
starters; the call fails with the configuration error exactly when no
feasible formation scores above the loop's −1 sentinel (in particular when
no formation is feasible); and on success the result carries the maximal
feasible score, strictly above −1, achieved by the earliest formation in
the enumeration attaining it. -/
theorem c8_formation_search (squad : List Player) (pts : Player → ℚ)
    (capM viceM : ℚ) :
    (∀ fm ∈ allowedFormations,
      (totalOfFormation squad pts capM viceM fm = none ↔
        formationInfeasible squad fm.1 fm.2.1 fm.2.2)) ∧
    (∀ fm ∈ allowedFormations, ∀ xi bench total cap vice,
      optimizeFormation squad pts fm.1 fm.2.1 fm.2.2 capM viceM =
        some (xi, bench, total, cap, vice) →
      xi = formationXI squad pts fm.1 fm.2.1 fm.2.2 ∧ xi.length = 11 ∧
      total = lineupTotal xi pts cap vice capM viceM) ∧
    (selectStartingEleven squad pts capM viceM =
        .error "No valid formation possible with current squad" ↔
      ∀ fm ∈ allowedFormations, ∀ q,
        totalOfFormation squad pts capM viceM fm = some q → q ≤ -1) ∧
    (∀ res, selectStartingEleven squad pts capM viceM = .ok res →
      ∃ i, ∃ hi : i < allowedFormations.length,
        totalOfFormation squad pts capM viceM (allowedFormations.get ⟨i, hi⟩) =
          some res.expectedPointsGw ∧
        res.formation = formationString (allowedFormations.get ⟨i, hi⟩) ∧
        -1 < res.expectedPointsGw ∧
        (∀ fm ∈ allowedFormations, ∀ q,
          totalOfFormation squad pts capM viceM fm = some q →
            q ≤ res.expectedPointsGw) ∧
        (∀ j, ∀ hj : j < allowedFormations.length, j < i → ∀ q,
          totalOfFormation squad pts capM viceM (allowedFormations.get ⟨j, hj⟩) =
            some q → q < res.expectedPointsGw)) := by
  have h2all : ∀ fm ∈ allowedFormations, 2 ≤ 1 + fm.1 + fm.2.1 + fm.2.2 := by decide
  have h11 : ∀ fm ∈ allowedFormations, 1 + fm.1 + fm.2.1 + fm.2.2 = 11 := by decide
  refine ⟨?_, ?_, ?_, ?_⟩
  · intro fm hfm
    have hmap : totalOfFormation squad pts capM viceM fm = none ↔
        optimizeFormation squad pts fm.1 fm.2.1 fm.2.2 capM viceM = none := by
      unfold totalOfFormation
      cases optimizeFormation squad pts fm.1 fm.2.1 fm.2.2 capM viceM <;> simp
    rw [hmap]
    exact optimizeFormation_none_iff squad pts _ _ _ capM viceM (h2all fm hfm)
  · intro fm hfm xi bench total cap vice hsome
    obtain ⟨hinf, hxi, hbench, c, v, rest, hsort, hcap, hvice, htotal⟩ :=
      optimizeFormation_inv squad pts _ _ _ capM viceM xi bench total cap vice hsome
    refine ⟨hxi, ?_, ?_⟩
    · rw [hxi, formationXI_length squad pts _ _ _ hinf]
      exact h11 fm hfm
    · rw [htotal, hcap, hvice, hxi]
  · constructor
    · intro herr
      unfold selectStartingEleven at herr
      split at herr
      next hfold =>
        exact ((foldl_formationStep_none_iff squad pts capM viceM
          allowedFormations none).mp hfold).2
      next b hfold => cases herr
    · intro hall
      unfold selectStartingEleven
      cases hfold : allowedFormations.foldl (formationStep squad pts capM viceM)
          none with
      | none => rfl
      | some b =>
        exfalso
        rcases foldl_formationStep_some squad pts capM viceM allowedFormations
            none b hfold with ⟨hc, _⟩ | ⟨i, hi, hopt, hfm, hlt, _, _⟩
        · cases hc
        · have htot : totalOfFormation squad pts capM viceM
              (allowedFormations.get ⟨i, hi⟩) = some b.points := by
            unfold totalOfFormation
            rw [hopt]
            rfl
          have := hall _ (allowedFormations.get_mem i hi) b.points htot
          have hm1 : statePoints (none : Option BestChoice) = -1 := rfl
          rw [hm1] at hlt
          linarith
  · intro res hok
    unfold selectStartingEleven at hok
    split at hok
    · cases hok
    next b hfold =>
    injection hok with hok
    subst hok
    rcases foldl_formationStep_some squad pts capM viceM allowedFormations none b
        hfold with ⟨hc, _⟩ | ⟨i, hi, hopt, hfm, hlt, hall, hbefore⟩
    · cases hc
    refine ⟨i, hi, ?_, ?_, ?_, hall, hbefore⟩
    · show totalOfFormation squad pts capM viceM _ = some b.points
      unfold totalOfFormation
      rw [hopt]
      rfl
    · show formationString b.fm = _
      rw [hfm]
    · exact hlt

/-- The 15-player squad used as lineup-selection test data: 2/5/5/3 across
the classes, distinct ids, round points equal to the player id. -/
def wSquad : List Player :=
  wRows.map (fun p => p.setEp "ep_gw1" ((p.id : ℚ)))

def wLineupResult : StartingElevenResult :=
  match selectStartingEleven wSquad (fun p => p.epVal "ep_gw1") 2 1 with
  | .ok r => r
  | .error _ => default

def wChoice : List Player × List Player × ℚ × Int × Int :=
  match optimizeFormation wSquad (fun p => p.epVal "ep_gw1") 3 4 3 2 1 with
  | some x => x
  | none => ([], [], 0, 0, 0)

set_option maxRecDepth 100000 in
/-- Witness for the amended C8: on the concrete squad the feasible (3,4,3)
formation has 11 starters whose score is the weighted sum, and the selected
lineup's score beats the −1 sentinel. -/
theorem c8_formation_search_witness :
    wChoice.1.length = 11 ∧
    wChoice.2.2.1 = lineupTotal wChoice.1 (fun p => p.epVal "ep_gw1")
      wChoice.2.2.2.1 wChoice.2.2.2.2 2 1 ∧
    -1 < wLineupResult.expectedPointsGw := by
  have hb := (c8_formation_search wSquad (fun p => p.epVal "ep_gw1") 2 1).2.1
    (3, 4, 3) (by decide) wChoice.1 wChoice.2.1 wChoice.2.2.1 wChoice.2.2.2.1
    wChoice.2.2.2.2 (by with_unfolding_all rfl)
  obtain ⟨i, hi, _, _, hgt, _, _⟩ :=
    (c8_formation_search wSquad (fun p => p.epVal "ep_gw1") 2 1).2.2.2
      wLineupResult (by with_unfolding_all rfl)
  exact ⟨hb.2.1, hb.2.2, hgt⟩

set_option maxRecDepth 100000 in
/-- Counterexample to C8 as stated: on a squad whose round points are all
−1, the (3,4,3) formation is feasible (its evaluation returns a lineup),
yet `select_lineup` raises the configuration error, because every feasible
score (−12 with the captain doubling) fails the loop's strict `> −1`
sentinel comparison.  The claim says the error occurs only when no
formation is feasible. -/
theorem c8_sentinel_counterexample :
    (optimizeFormation (wRows.map (fun p => p.setEp "ep_gw1" (-1)))
      (fun p => p.epVal "ep_gw1") 3 4 3 2 1).isSome = true ∧
    selectStartingEleven (wRows.map (fun p => p.setEp "ep_gw1" (-1)))
      (fun p => p.epVal "ep_gw1") 2 1 =
      .error "No valid formation possible with current squad" := by
  constructor
  · with_unfolding_all rfl
  · with_unfolding_all rfl

set_option maxRecDepth 100000 in
/-- Witness for C9 on the concrete squad: 11 starters, 4 on the bench,
distinct captain and vice-captain, and an allowed formation. -/
theorem c9_lineup_invariants_witness :
    wLineupResult.startingEleven.length = 11 ∧
    wLineupResult.bench.length = 4 ∧
    ¬ wLineupResult.captainId = wLineupResult.viceCaptainId ∧
    wLineupResult.formation ∈ allowedFormations.map formationString := by
  have h := c9_lineup_invariants wSquad (fun p => p.epVal "ep_gw1") 2 1
    (by with_unfolding_all decide) (by with_unfolding_all decide) wLineupResult
    (by with_unfolding_all rfl)
  exact ⟨h.2.2.2.2.1, h.2.2.2.2.2.1, h.2.2.2.2.2.2.2.1, h.2.2.2.2.2.2.2.2.2.2⟩
